import Mathlib

/-!
# Payroll computation engine

A shallow embedding of `SalaryCalculator` (`server/utils/salaryCalculator.js`), of the
payroll creation handlers (`server/routes/payroll.js`), of the increment handlers
(`server/routes/admin.js`) and of the leave handlers (`server/routes/leaves.js`), and the
theorems that settle the specification's statements about them.

Modelling conventions.

* A JavaScript `Number` is an exact rational (`ℚ`): every sum, product and quotient is
  the mathematical one, so binary floating-point error is outside the model.
* `Math.round x` is `⌊x + 1/2⌋` (a half rounds towards `+∞`), kept as a `ℚ`.
* Database reads are explicit arguments: the `IncrementSettings` collection is a list,
  `findOne({ isActive: true })` returns its first active document.
* `moment().diff(joiningDate, 'years')` is an integer computed by the `moment` library;
  it is passed in as `yearsOfService : ℤ`, and `end.diff(start, 'days')` likewise as
  `diffDays start end`.
* The `for` loop of `calculateCurrentSalary` is bounded by `Math.floor(y / interval)`.
  With `interval = 0` and `y > 0` that bound is `Infinity` and the loop never exits;
  the model returns `none` there and `some` result everywhere else.
* A collection is the list of its documents; a handler takes the collections it reads
  and returns its response together with the collection it writes. Requests are served
  one at a time.
-/

namespace Payroll

/-! ## Data model -/

/-- The `incrementType` enum of `models/IncrementSettings.js`. -/
inductive IncrementType where
  | percentage
  | fixed
  deriving DecidableEq, Repr

/-- A document of `models/IncrementSettings.js`. -/
structure IncrementSettings where
  interval : ℚ
  incrementType : IncrementType
  incrementValue : ℚ
  isActive : Bool
  deriving DecidableEq

/-- A calendar date as `moment` sees it: `monthIndex` is zero-based (January is 0). -/
structure Date where
  year : ℤ
  monthIndex : ℤ
  day : ℤ
  deriving DecidableEq

/-- The `status` enum of an employee. -/
inductive EmployeeStatus where
  | active
  | inactive
  | terminated
  deriving DecidableEq, Repr

/-- Modelled from the spec: the `Employee` document (`models/Employee.js` is not part of
the sources): identity, base salary, current salary, join date and employment status. -/
structure Employee where
  id : ℕ
  baseSalary : ℚ
  currentSalary : ℚ
  dateOfJoining : Date
  status : EmployeeStatus
  deriving DecidableEq

/-- The `status` enum of `models/Leave.js`. -/
inductive LeaveStatus where
  | pending
  | approved
  | rejected
  deriving DecidableEq, Repr

/-- The `leaveType` enum of `models/Leave.js`. -/
inductive LeaveType where
  | sick
  | casual
  | annual
  | maternity
  | paternity
  | other
  deriving DecidableEq, Repr

/-- A document of `models/Leave.js`, with its identity `id`. -/
structure Leave where
  employeeId : ℕ
  startDate : Date
  endDate : Date
  numberOfDays : ℚ
  status : LeaveStatus
  isPaid : Bool
  id : ℕ
  leaveType : LeaveType
  reason : String
  remarks : Option String
  approvedBy : Option ℕ
  approvedAt : Option Date
  deriving DecidableEq

/-- The `allowances` object of a salary breakdown. -/
structure Allowances where
  hra : ℚ
  da : ℚ
  ta : ℚ
  other : ℚ
  deriving DecidableEq

/-- The `bonuses` object of a salary breakdown. -/
structure Bonuses where
  performance : ℚ
  attendance : ℚ
  other : ℚ
  deriving DecidableEq

/-- The `deductions` object of a salary breakdown. -/
structure Deductions where
  tax : ℚ
  pf : ℚ
  esi : ℚ
  loan : ℚ
  leave : ℚ
  other : ℚ
  deriving DecidableEq

/-- The object returned by `calculateMonthlySalary`. -/
structure SalaryData where
  basicSalary : ℚ
  allowances : Allowances
  bonuses : Bonuses
  deductions : Deductions
  grossSalary : ℚ
  netSalary : ℚ
  workingDays : ℚ
  paidLeaves : ℚ
  unpaidLeaves : ℚ
  deriving DecidableEq

/-! ## Library functions -/

/-- JavaScript `Math.round`: the nearest integer, a half rounding up. -/
def Math.round (x : ℚ) : ℚ := ((⌊x + 1 / 2⌋ : ℤ) : ℚ)

/-- JavaScript `Math.floor`. -/
def Math.floor (x : ℚ) : ℤ := ⌊x⌋

/-- `moment(d).month()`: the zero-based month of a date. -/
def moment.month (d : Date) : ℤ := d.monthIndex

/-- `moment(d).year()`. -/
def moment.year (d : Date) : ℤ := d.year

/-- `Object.values(allowances)`, in insertion order. -/
def Allowances.values (a : Allowances) : List ℚ := [a.hra, a.da, a.ta, a.other]

/-- `Object.values(bonuses)`, in insertion order. -/
def Bonuses.values (b : Bonuses) : List ℚ := [b.performance, b.attendance, b.other]

/-- `Object.values(deductions)`, in insertion order. -/
def Deductions.values (d : Deductions) : List ℚ :=
  [d.tax, d.pf, d.esi, d.loan, d.leave, d.other]

/-- `xs.reduce((sum, val) => sum + val, 0)`. -/
def sumValues (xs : List ℚ) : ℚ := xs.foldl (fun sum val => sum + val) 0

/-- `IncrementSettings.findOne({ isActive: true })` over the stored documents. -/
def IncrementSettings.findOne (store : List IncrementSettings) : Option IncrementSettings :=
  store.find? (fun s => s.isActive)

/-! ## `SalaryCalculator` -/

/-- One pass of the loop body of `calculateCurrentSalary` (lines 24-28). -/
def incrementStep (incrementSettings : IncrementSettings) (currentSalary : ℚ) : ℚ :=
  if incrementSettings.incrementType = IncrementType.percentage then
    currentSalary + (currentSalary * incrementSettings.incrementValue / 100)
  else
    currentSalary + incrementSettings.incrementValue

/-- The `for (let i = 0; i < numberOfIncrements; i++)` loop, run `n` times. -/
def incrementLoop (incrementSettings : IncrementSettings) : ℕ → ℚ → ℚ
  | 0, currentSalary => currentSalary
  | n + 1, currentSalary =>
      incrementLoop incrementSettings n (incrementStep incrementSettings currentSalary)

/-- `SalaryCalculator.calculateCurrentSalary(employee)`; `store` is the settings
collection and `yearsOfService` the value of `currentDate.diff(joiningDate, 'years')`.
The result is `none` exactly where the source loop does not terminate. -/
def calculateCurrentSalary (store : List IncrementSettings) (employee : Employee)
    (yearsOfService : ℤ) : Option ℚ :=
  match IncrementSettings.findOne store with
  | none => some employee.baseSalary
  | some incrementSettings =>
    if (yearsOfService : ℚ) < incrementSettings.interval then
      some employee.baseSalary
    else if incrementSettings.interval = 0 ∧ 0 < yearsOfService then
      none
    else
      let numberOfIncrements := Math.floor ((yearsOfService : ℚ) / incrementSettings.interval)
      some (Math.round
        (incrementLoop incrementSettings numberOfIncrements.toNat employee.baseSalary))

/-- `SalaryCalculator.calculateUnpaidLeaves(leaves, month, year)`. -/
def calculateUnpaidLeaves (leaves : List Leave) (month year : ℤ) : ℚ :=
  (leaves.filter (fun leave =>
      let leaveMonth := moment.month leave.startDate + 1
      let leaveYear := moment.year leave.startDate
      decide (leaveMonth = month) && decide (leaveYear = year) && !leave.isPaid)).foldl
    (fun total leave => total + leave.numberOfDays) 0

/-- `SalaryCalculator.calculatePaidLeaves(leaves, month, year)`. -/
def calculatePaidLeaves (leaves : List Leave) (month year : ℤ) : ℚ :=
  (leaves.filter (fun leave =>
      let leaveMonth := moment.month leave.startDate + 1
      let leaveYear := moment.year leave.startDate
      decide (leaveMonth = month) && decide (leaveYear = year) && leave.isPaid)).foldl
    (fun total leave => total + leave.numberOfDays) 0

/-- `SalaryCalculator.calculateMonthlySalary(employee, month, year, leaves)`. -/
def calculateMonthlySalary (employee : Employee) (month year : ℤ) (leaves : List Leave) :
    SalaryData :=
  let basicSalary := employee.currentSalary
  let hra := basicSalary * 0.4
  let da := basicSalary * 0.5
  let ta : ℚ := 2000
  let otherAllowances : ℚ := 1000
  let allowances : Allowances := { hra := hra, da := da, ta := ta, other := otherAllowances }
  let performanceBonus := basicSalary * 0.1
  let attendanceBonus : ℚ := 500
  let otherBonuses : ℚ := 0
  let bonuses : Bonuses :=
    { performance := performanceBonus, attendance := attendanceBonus, other := otherBonuses }
  let tax := basicSalary * 0.1
  let pf := basicSalary * 0.12
  let esi := basicSalary * 0.0175
  let loanDeduction : ℚ := 0
  let otherDeductions : ℚ := 0
  let unpaidLeaves := calculateUnpaidLeaves leaves month year
  let perDaySalary := basicSalary / 30
  let leaveDeduction := unpaidLeaves * perDaySalary
  let deductions : Deductions :=
    { tax := tax, pf := pf, esi := esi, loan := loanDeduction, leave := leaveDeduction,
      other := otherDeductions }
  let totalAllowances := sumValues allowances.values
  let totalBonuses := sumValues bonuses.values
  let totalDeductions := sumValues deductions.values
  let grossSalary := basicSalary + totalAllowances + totalBonuses
  let netSalary := grossSalary - totalDeductions
  { basicSalary := basicSalary
    allowances := allowances
    bonuses := bonuses
    deductions := deductions
    grossSalary := Math.round grossSalary
    netSalary := Math.round netSalary
    workingDays := 30 - unpaidLeaves
    paidLeaves := calculatePaidLeaves leaves month year
    unpaidLeaves := unpaidLeaves }

/-- The sum of the six deductions of a compiled record. -/
def SalaryData.totalDeductions (r : SalaryData) : ℚ :=
  r.deductions.tax + r.deductions.pf + r.deductions.esi + r.deductions.loan +
    r.deductions.leave + r.deductions.other

/-- The sum of the four allowances of a compiled record. -/
def SalaryData.totalAllowances (r : SalaryData) : ℚ :=
  r.allowances.hra + r.allowances.da + r.allowances.ta + r.allowances.other

/-- The sum of the three bonuses of a compiled record. -/
def SalaryData.totalBonuses (r : SalaryData) : ℚ :=
  r.bonuses.performance + r.bonuses.attendance + r.bonuses.other

/-- A number with no fractional part. -/
def IsWhole (x : ℚ) : Prop := ∃ k : ℤ, x = (k : ℚ)

/-- A leave whose start date falls in calendar month `month` (1 to 12) of `year`. -/
def startsInMonth (leave : Leave) (month year : ℤ) : Prop :=
  leave.startDate.monthIndex + 1 = month ∧ leave.startDate.year = year

instance (leave : Leave) (month year : ℤ) : Decidable (startsInMonth leave month year) := by
  unfold startsInMonth
  infer_instance

/-- The days a single leave adds to the count for (`month`, `year`) with paid flag
`paid`: all of its `numberOfDays` when it starts in that month and carries that flag,
nothing otherwise. -/
def leaveContribution (paid : Bool) (month year : ℤ) (leave : Leave) : ℚ :=
  if startsInMonth leave month year ∧ leave.isPaid = paid then leave.numberOfDays else 0

/-! ## Payroll store and routes (`server/models/Payroll.js`, `server/routes/payroll.js`)

The handlers run behind the `auth` middleware; the model starts where an authenticated
request reaches the handler. Each handler returns its response and the payroll
collection it leaves behind. -/

/-- The `status` enum of `models/Payroll.js`. -/
inductive PayrollStatus where
  | pending
  | processed
  | paid
  deriving DecidableEq, Repr

/-- A document of `models/Payroll.js`. -/
structure PayrollRecord where
  employeeId : ℕ
  month : ℤ
  year : ℤ
  basicSalary : ℚ
  allowances : Allowances
  bonuses : Bonuses
  deductions : Deductions
  grossSalary : ℚ
  netSalary : ℚ
  workingDays : ℚ
  paidLeaves : ℚ
  unpaidLeaves : ℚ
  status : PayrollStatus
  remarks : Option String
  deriving DecidableEq

/-- The responses of the two creation handlers. -/
inductive Response where
  | validationErrors
  | employeeNotFound
  | payrollExists
  | serverError
  | created (payroll : PayrollRecord)
  deriving DecidableEq

/-- The HTTP status code of a response. -/
def Response.status : Response → ℕ
  | Response.validationErrors => 400
  | Response.employeeNotFound => 404
  | Response.payrollExists => 400
  | Response.serverError => 500
  | Response.created _ => 200

/-- The `message` of a response body, where it has one. -/
def Response.message : Response → Option String
  | Response.validationErrors => none
  | Response.employeeNotFound => some "Employee not found"
  | Response.payrollExists => some "Payroll already exists for this month"
  | Response.serverError => some "Server error"
  | Response.created _ => none

/-- The validator `isInt({ min, max })` on a numeric body field. -/
def isIntBetween (x : ℚ) (min max : ℤ) : Bool :=
  decide (x.den = 1) && decide (min ≤ x.num) && decide (x.num ≤ max)

/-- The validator `isInt({ min })` on a numeric body field. -/
def isIntAtLeast (x : ℚ) (min : ℤ) : Bool :=
  decide (x.den = 1) && decide (min ≤ x.num)

/-- The validator `isFloat({ min })` on a numeric body field. -/
def isFloatAtLeast (x : ℚ) (min : ℚ) : Bool := decide (min ≤ x)

/-- JavaScript `x || d` on an optional number: `d` when `x` is missing or `0`. -/
def orDefault (x : Option ℚ) (d : ℚ) : ℚ :=
  match x with
  | none => d
  | some v => if v = 0 then d else v

/-- `Employee.findById(id)`. -/
def Employee.findById (employees : List Employee) (id : ℕ) : Option Employee :=
  employees.find? (fun e => decide (e.id = id))

/-- `Payroll.findOne({ employeeId, month, year })`. -/
def Payroll.findOne (payrolls : List PayrollRecord) (employeeId : ℕ) (month year : ℤ) :
    Option PayrollRecord :=
  payrolls.find? (fun p =>
    decide (p.employeeId = employeeId) && decide (p.month = month) && decide (p.year = year))

/-- The `min`/`max` validators of `payrollSchema`, run by `save()`. -/
def Payroll.schemaValid (p : PayrollRecord) : Bool :=
  decide (1 ≤ p.month) && decide (p.month ≤ 12) && decide (0 ≤ p.basicSalary)
    && decide (0 ≤ p.grossSalary) && decide (0 ≤ p.netSalary) && decide (0 ≤ p.workingDays)

/-- `payroll.save()` of a new document: `none` when it throws, on a schema validator or
on the unique index `{ employeeId, month, year }`; otherwise the collection with the
document inserted. -/
def Payroll.save (payrolls : List PayrollRecord) (p : PayrollRecord) :
    Option (List PayrollRecord) :=
  if Payroll.schemaValid p = true
      ∧ Payroll.findOne payrolls p.employeeId p.month p.year = none then
    some (payrolls ++ [p])
  else
    none

/-- The calendar month a date lies in, counted from year 0; `new Date(y, m, d)` carries a
month index outside 0..11 into the neighbouring year, which this count absorbs. -/
def Date.monthCount (d : Date) : ℤ := d.year * 12 + d.monthIndex

/-- Chronological `a ≤ b` on dates. -/
def Date.le (a b : Date) : Bool :=
  decide (a.monthCount < b.monthCount)
    || (decide (a.monthCount = b.monthCount) && decide (a.day ≤ b.day))

/-- Chronological `a < b` on dates. -/
def Date.lt (a b : Date) : Bool :=
  decide (a.monthCount < b.monthCount)
    || (decide (a.monthCount = b.monthCount) && decide (a.day < b.day))

/-- `Leave.find({ employeeId, startDate: { $gte: from, $lt: to } })`. -/
def Leave.find (leaves : List Leave) (employeeId : ℕ) (gte lt : Date) : List Leave :=
  leaves.filter (fun leave =>
    decide (leave.employeeId = employeeId) && Date.le gte leave.startDate
      && Date.lt leave.startDate lt)

/-- The body of `POST /api/payroll/generate`. -/
structure GenerateRequest where
  employeeId : ℕ
  month : ℚ
  year : ℚ
  deriving DecidableEq

/-- The `leaves` object of the body of `POST /api/payroll`. -/
structure LeavesPayload where
  paid : Option ℚ
  unpaid : Option ℚ
  deriving DecidableEq

/-- The body of `POST /api/payroll`. -/
structure ManualRequest where
  employeeId : ℕ
  month : ℚ
  year : ℚ
  basicSalary : ℚ
  allowances : Option Allowances
  bonuses : Option Bonuses
  deductions : Option Deductions
  workingDays : Option ℚ
  leaves : Option LeavesPayload
  remarks : Option String
  grossSalary : Option ℚ
  netSalary : Option ℚ
  deriving DecidableEq

/-- The document `POST /api/payroll/generate` builds from the salary breakdown. -/
def generatedRecord (employeeId : ℕ) (month year : ℤ) (salaryData : SalaryData) :
    PayrollRecord :=
  { employeeId := employeeId
    month := month
    year := year
    basicSalary := salaryData.basicSalary
    allowances := salaryData.allowances
    bonuses := salaryData.bonuses
    deductions := salaryData.deductions
    grossSalary := salaryData.grossSalary
    netSalary := salaryData.netSalary
    workingDays := salaryData.workingDays
    paidLeaves := salaryData.paidLeaves
    unpaidLeaves := salaryData.unpaidLeaves
    status := PayrollStatus.processed
    remarks := none }

/-- The handler of `POST /api/payroll/generate`. Past validation `month` and `year` are
whole numbers and are carried as integers. -/
def generatePayroll (employees : List Employee) (leaveStore : List Leave)
    (payrolls : List PayrollRecord) (req : GenerateRequest) :
    Response × List PayrollRecord :=
  if ¬ (isIntBetween req.month 1 12 = true ∧ isIntAtLeast req.year 2020 = true) then
    (Response.validationErrors, payrolls)
  else
    let employeeId := req.employeeId
    let month := req.month.num
    let year := req.year.num
    match Employee.findById employees employeeId with
    | none => (Response.employeeNotFound, payrolls)
    | some employee =>
      match Payroll.findOne payrolls employeeId month year with
      | some _ => (Response.payrollExists, payrolls)
      | none =>
        let leaves := Leave.find leaveStore employeeId
          { year := year, monthIndex := month - 1, day := 1 }
          { year := year, monthIndex := month, day := 1 }
        let salaryData := calculateMonthlySalary employee month year leaves
        let payroll := generatedRecord employeeId month year salaryData
        match Payroll.save payrolls payroll with
        | some saved => (Response.created payroll, saved)
        | none => (Response.serverError, payrolls)

/-- The document `POST /api/payroll` builds from the form data. -/
def manualRecord (req : ManualRequest) : PayrollRecord :=
  { employeeId := req.employeeId
    month := req.month.num
    year := req.year.num
    basicSalary := orDefault (some req.basicSalary) 0
    allowances := req.allowances.getD { hra := 0, da := 0, ta := 0, other := 0 }
    bonuses := req.bonuses.getD { performance := 0, attendance := 0, other := 0 }
    deductions := req.deductions.getD
      { tax := 0, pf := 0, esi := 0, loan := 0, leave := 0, other := 0 }
    grossSalary := orDefault req.grossSalary 0
    netSalary := orDefault req.netSalary 0
    workingDays := orDefault req.workingDays 22
    paidLeaves := orDefault (req.leaves.bind (fun l => l.paid)) 0
    unpaidLeaves := orDefault (req.leaves.bind (fun l => l.unpaid)) 0
    status := PayrollStatus.processed
    remarks := some (req.remarks.getD "") }

/-- The handler of `POST /api/payroll`. -/
def createPayroll (employees : List Employee) (payrolls : List PayrollRecord)
    (req : ManualRequest) : Response × List PayrollRecord :=
  if ¬ (isIntBetween req.month 1 12 = true ∧ isIntAtLeast req.year 2020 = true
      ∧ isFloatAtLeast req.basicSalary 0 = true) then
    (Response.validationErrors, payrolls)
  else
    match Employee.findById employees req.employeeId with
    | none => (Response.employeeNotFound, payrolls)
    | some _ =>
      match Payroll.findOne payrolls req.employeeId req.month.num req.year.num with
      | some _ => (Response.payrollExists, payrolls)
      | none =>
        let payroll := manualRecord req
        match Payroll.save payrolls payroll with
        | some saved => (Response.created payroll, saved)
        | none => (Response.serverError, payrolls)

/-- A request to one of the two creation entry points, with the employee and leave
collections as they stand when it is served. -/
inductive CreateRequest where
  | generate (employees : List Employee) (leaveStore : List Leave) (req : GenerateRequest)
  | manual (employees : List Employee) (req : ManualRequest)

/-- Serving one creation request. -/
def CreateRequest.serve (payrolls : List PayrollRecord) :
    CreateRequest → Response × List PayrollRecord
  | CreateRequest.generate employees leaveStore req =>
      generatePayroll employees leaveStore payrolls req
  | CreateRequest.manual employees req => createPayroll employees payrolls req

/-- Serving a sequence of creation requests one at a time. -/
def serveAll (payrolls : List PayrollRecord) (requests : List CreateRequest) :
    List PayrollRecord :=
  requests.foldl (fun store request => (request.serve store).2) payrolls

/-- The key `(employeeId, month, year)` of a payroll record. -/
def PayrollRecord.key (p : PayrollRecord) : ℕ × ℤ × ℤ := (p.employeeId, p.month, p.year)

/-- Period uniqueness: at most one record per `(employeeId, month, year)`. -/
def periodUnique (payrolls : List PayrollRecord) : Prop :=
  (payrolls.map PayrollRecord.key).Nodup

/-- The sum of the four allowances of a stored record. -/
def PayrollRecord.totalAllowances (p : PayrollRecord) : ℚ :=
  p.allowances.hra + p.allowances.da + p.allowances.ta + p.allowances.other

/-- The sum of the three bonuses of a stored record. -/
def PayrollRecord.totalBonuses (p : PayrollRecord) : ℚ :=
  p.bonuses.performance + p.bonuses.attendance + p.bonuses.other

/-- The sum of the six deductions of a stored record. -/
def PayrollRecord.totalDeductions (p : PayrollRecord) : ℚ :=
  p.deductions.tax + p.deductions.pf + p.deductions.esi + p.deductions.loan
    + p.deductions.leave + p.deductions.other

/-! ## Increment batch (`SalaryCalculator.applyIncrements`)

The employee collection is a list of documents told apart by `id`. The current time
enters through `yearsOfService`, which gives `moment().diff(dateOfJoining, 'years')` for
a join date. -/

/-- `Employee.find({ status })`. -/
def Employee.find (employees : List Employee) (status : EmployeeStatus) : List Employee :=
  employees.filter (fun e => decide (e.status = status))

/-- `employee.save()` on a fetched document: the stored document of the same identity is
replaced. -/
def Employee.save (employees : List Employee) (employee : Employee) : List Employee :=
  employees.map (fun stored => if stored.id = employee.id then employee else stored)

/-- What a run of `applyIncrements` leaves: the returned `message` and `updatedCount`
(absent in the no-op result), the employee collection, and the documents it saved, in
order. -/
structure IncrementOutcome where
  message : String
  updatedCount : Option ℕ
  employees : List Employee
  saved : List Employee
  deriving DecidableEq

/-- The `for (const employee of employees)` loop of `applyIncrements`: the documents
still to visit, then the collection, `updatedCount` and the saved documents so far. -/
def applyIncrementsLoop (store : List IncrementSettings) (yearsOfService : Date → ℤ) :
    List Employee → List Employee → ℕ → List Employee →
      Option (List Employee × ℕ × List Employee)
  | [], employees, updatedCount, saved => some (employees, updatedCount, saved)
  | employee :: rest, employees, updatedCount, saved =>
    match calculateCurrentSalary store employee (yearsOfService employee.dateOfJoining) with
    | none => none
    | some newSalary =>
      if newSalary ≠ employee.currentSalary then
        applyIncrementsLoop store yearsOfService rest
          (Employee.save employees { employee with currentSalary := newSalary })
          (updatedCount + 1) (saved ++ [{ employee with currentSalary := newSalary }])
      else
        applyIncrementsLoop store yearsOfService rest employees updatedCount saved

/-- `SalaryCalculator.applyIncrements()`; `none` where a salary projection does not
terminate. -/
def applyIncrements (store : List IncrementSettings) (yearsOfService : Date → ℤ)
    (employees : List Employee) : Option IncrementOutcome :=
  match IncrementSettings.findOne store with
  | none =>
    some { message := "No active increment settings found", updatedCount := none,
           employees := employees, saved := [] }
  | some _ =>
    match applyIncrementsLoop store yearsOfService
        (Employee.find employees EmployeeStatus.active) employees 0 [] with
    | none => none
    | some (updated, updatedCount, saved) =>
      some { message := "Increments applied to " ++ toString updatedCount ++ " employees",
             updatedCount := some updatedCount, employees := updated, saved := saved }

/-- The salary `calculateCurrentSalary` projects for a stored employee. -/
def projected (store : List IncrementSettings) (yearsOfService : Date → ℤ)
    (employee : Employee) : Option ℚ :=
  calculateCurrentSalary store employee (yearsOfService employee.dateOfJoining)

/-- An employee the batch has to update: active, with a projected salary that differs
from the stored current salary. -/
def needsUpdate (store : List IncrementSettings) (yearsOfService : Date → ℤ)
    (employee : Employee) : Bool :=
  decide (employee.status = EmployeeStatus.active)
    && decide (projected store yearsOfService employee ≠ some employee.currentSalary)

/-- The employee with the projected salary as current salary. -/
def withProjected (store : List IncrementSettings) (yearsOfService : Date → ℤ)
    (employee : Employee) : Employee :=
  { employee with
    currentSalary := (projected store yearsOfService employee).getD employee.currentSalary }

/-- The document the specification expects after the batch: an employee that needs an
update carries the projected salary, every other document is as before. -/
def incremented (store : List IncrementSettings) (yearsOfService : Date → ℤ)
    (employee : Employee) : Employee :=
  if needsUpdate store yearsOfService employee = true then
    withProjected store yearsOfService employee
  else employee

/-- The effect on one stored document of the loop's visits to `visited`, in order. -/
def visit (store : List IncrementSettings) (yearsOfService : Date → ℤ)
    (visited : List Employee) (stored : Employee) : Employee :=
  visited.foldl (fun acc employee =>
    if projected store yearsOfService employee ≠ some employee.currentSalary
        ∧ acc.id = employee.id then
      withProjected store yearsOfService employee
    else acc) stored

/-! ## Administration routes (`server/routes/admin.js`) -/

/-- Reading the `incrementType` string of a request body against the schema enum. -/
def IncrementType.ofString : String → Option IncrementType
  | "percentage" => some IncrementType.percentage
  | "fixed" => some IncrementType.fixed
  | _ => none

/-- The body of `POST /api/admin/increment-settings`. -/
structure SettingsRequest where
  interval : ℚ
  incrementType : String
  incrementValue : ℚ
  deriving DecidableEq

/-- The responses of `POST /api/admin/increment-settings`: 400 with the validation
errors, 500, or 200 with the created settings document. -/
inductive SettingsResponse where
  | validationErrors
  | serverError
  | saved (settings : IncrementSettings)
  deriving DecidableEq

/-- `IncrementSettings.updateMany({}, { isActive: false })`. -/
def IncrementSettings.deactivateAll (store : List IncrementSettings) :
    List IncrementSettings :=
  store.map (fun s => { s with isActive := false })

/-- The `min` validators of `incrementSettingsSchema`, run by `save()`. -/
def IncrementSettings.schemaValid (s : IncrementSettings) : Bool :=
  decide (1 ≤ s.interval) && decide (0 ≤ s.incrementValue)

/-- `settings.save()` of a new document; `none` when a schema validator throws. -/
def IncrementSettings.save (store : List IncrementSettings) (s : IncrementSettings) :
    Option (List IncrementSettings) :=
  if IncrementSettings.schemaValid s = true then some (store ++ [s]) else none

/-- The handler of `POST /api/admin/increment-settings`; the new document takes the
schema default `isActive: true`. -/
def postIncrementSettings (store : List IncrementSettings) (req : SettingsRequest) :
    SettingsResponse × List IncrementSettings :=
  match IncrementType.ofString req.incrementType with
  | none => (SettingsResponse.validationErrors, store)
  | some incrementType =>
    if ¬ (isIntAtLeast req.interval 1 = true ∧ isFloatAtLeast req.incrementValue 0 = true) then
      (SettingsResponse.validationErrors, store)
    else
      let deactivated := IncrementSettings.deactivateAll store
      let settings : IncrementSettings :=
        { interval := req.interval, incrementType := incrementType,
          incrementValue := req.incrementValue, isActive := true }
      match IncrementSettings.save deactivated settings with
      | some saved => (SettingsResponse.saved settings, saved)
      | none => (SettingsResponse.serverError, deactivated)

/-- The collections of the application. -/
structure Database where
  settings : List IncrementSettings
  employees : List Employee
  leaves : List Leave
  payrolls : List PayrollRecord

/-- The handler of `POST /api/admin/apply-increments` on the whole database: the result
of `applyIncrements` is sent back and the employee collection carries its writes. -/
def postApplyIncrements (yearsOfService : Date → ℤ) (db : Database) :
    Option (IncrementOutcome × Database) :=
  match applyIncrements db.settings yearsOfService db.employees with
  | none => none
  | some out => some (out, { db with employees := out.employees })

/-! ## Leave routes (`server/routes/leaves.js`)

`end.diff(start, 'days')` is computed by the `moment` library; it is passed in as
`diffDays start end`. -/

/-- Reading the `leaveType` string of a request body against the schema enum. -/
def LeaveType.ofString : String → Option LeaveType
  | "sick" => some LeaveType.sick
  | "casual" => some LeaveType.casual
  | "annual" => some LeaveType.annual
  | "maternity" => some LeaveType.maternity
  | "paternity" => some LeaveType.paternity
  | "other" => some LeaveType.other
  | _ => none

/-- Reading the `status` string of an approval against `isIn(['approved', 'rejected'])`. -/
def LeaveStatus.ofDecision : String → Option LeaveStatus
  | "approved" => some LeaveStatus.approved
  | "rejected" => some LeaveStatus.rejected
  | _ => none

/-- The responses of the leave handlers. -/
inductive LeaveResponse where
  | validationErrors
  | employeeNotFound
  | leaveNotFound
  | endBeforeStart
  | overlaps
  | alreadyProcessed
  | cannotUpdate
  | cannotDelete
  | serverError
  | ok (leave : Leave)
  | removed
  deriving DecidableEq

/-- The HTTP status code of a leave response. -/
def LeaveResponse.status : LeaveResponse → ℕ
  | LeaveResponse.validationErrors => 400
  | LeaveResponse.employeeNotFound => 404
  | LeaveResponse.leaveNotFound => 404
  | LeaveResponse.endBeforeStart => 400
  | LeaveResponse.overlaps => 400
  | LeaveResponse.alreadyProcessed => 400
  | LeaveResponse.cannotUpdate => 400
  | LeaveResponse.cannotDelete => 400
  | LeaveResponse.serverError => 500
  | LeaveResponse.ok _ => 200
  | LeaveResponse.removed => 200

/-- The `message` of a leave response body, where it has one. -/
def LeaveResponse.message : LeaveResponse → Option String
  | LeaveResponse.validationErrors => none
  | LeaveResponse.employeeNotFound => some "Employee not found"
  | LeaveResponse.leaveNotFound => some "Leave not found"
  | LeaveResponse.endBeforeStart => some "End date must be after start date"
  | LeaveResponse.overlaps =>
      some "Leave request overlaps with existing approved or pending leaves"
  | LeaveResponse.alreadyProcessed => some "Leave request has already been processed"
  | LeaveResponse.cannotUpdate => some "Cannot update processed leave request"
  | LeaveResponse.cannotDelete => some "Cannot delete processed leave request"
  | LeaveResponse.serverError => some "Server error"
  | LeaveResponse.ok _ => none
  | LeaveResponse.removed => some "Leave request removed"

/-- `Leave.findById(id)`. -/
def Leave.findById (leaves : List Leave) (id : ℕ) : Option Leave :=
  leaves.find? (fun leave => decide (leave.id = id))

/-- The overlap query of `POST /api/leaves`:
`Leave.find({ employeeId, status: { $in: ['pending', 'approved'] },
  startDate: { $lte: endDate }, endDate: { $gte: startDate } })`. -/
def Leave.findOverlapping (leaves : List Leave) (employeeId : ℕ) (startDate endDate : Date) :
    List Leave :=
  leaves.filter (fun leave =>
    decide (leave.employeeId = employeeId)
      && (decide (leave.status = LeaveStatus.pending)
        || decide (leave.status = LeaveStatus.approved))
      && Date.le leave.startDate endDate && Date.le startDate leave.endDate)

/-- The `min: 0.5` validator of `leaveSchema.numberOfDays`, run by `save()`. -/
def Leave.schemaValid (leave : Leave) : Bool := decide (1 / 2 ≤ leave.numberOfDays)

/-- An identity no stored leave carries, for a newly created document. -/
def Leave.freshId (leaves : List Leave) : ℕ :=
  (leaves.map (fun leave => leave.id)).foldl max 0 + 1

/-- `leave.save()` of a new document; `none` when the schema validator throws. -/
def Leave.insert (leaves : List Leave) (leave : Leave) : Option (List Leave) :=
  if Leave.schemaValid leave = true then some (leaves ++ [leave]) else none

/-- `leave.save()` on a fetched document: the stored document of the same identity is
replaced; `none` when the schema validator throws. -/
def Leave.save (leaves : List Leave) (leave : Leave) : Option (List Leave) :=
  if Leave.schemaValid leave = true then
    some (leaves.map (fun stored => if stored.id = leave.id then leave else stored))
  else none

/-- `leave.remove()`. -/
def Leave.remove (leaves : List Leave) (leave : Leave) : List Leave :=
  leaves.filter (fun stored => !decide (stored.id = leave.id))

/-- The body of `POST /api/leaves`. -/
structure CreateLeaveRequest where
  employeeId : ℕ
  leaveType : String
  startDate : Date
  endDate : Date
  reason : String
  isPaid : Option Bool
  deriving DecidableEq

/-- The body of `PUT /api/leaves/:id/approve`. -/
structure ApproveLeaveRequest where
  status : String
  remarks : Option String
  deriving DecidableEq

/-- The body of `PUT /api/leaves/:id`. -/
structure UpdateLeaveRequest where
  leaveType : Option String
  startDate : Option Date
  endDate : Option Date
  reason : Option String
  isPaid : Option Bool
  deriving DecidableEq

/-- The handler of `POST /api/leaves`; a new document has the schema default
`status: 'pending'`. -/
def createLeave (diffDays : Date → Date → ℤ) (employees : List Employee)
    (leaves : List Leave) (req : CreateLeaveRequest) : LeaveResponse × List Leave :=
  match LeaveType.ofString req.leaveType with
  | none => (LeaveResponse.validationErrors, leaves)
  | some leaveType =>
    if req.reason = "" then (LeaveResponse.validationErrors, leaves)
    else
      match Employee.findById employees req.employeeId with
      | none => (LeaveResponse.employeeNotFound, leaves)
      | some _ =>
        let numberOfDays : ℤ := diffDays req.startDate req.endDate + 1
        if numberOfDays ≤ 0 then (LeaveResponse.endBeforeStart, leaves)
        else
          let overlappingLeaves :=
            Leave.findOverlapping leaves req.employeeId req.startDate req.endDate
          if overlappingLeaves.length > 0 then (LeaveResponse.overlaps, leaves)
          else
            let leave : Leave :=
              { employeeId := req.employeeId, startDate := req.startDate,
                endDate := req.endDate, numberOfDays := (numberOfDays : ℚ),
                status := LeaveStatus.pending, isPaid := req.isPaid.getD false,
                id := Leave.freshId leaves, leaveType := leaveType, reason := req.reason,
                remarks := none, approvedBy := none, approvedAt := none }
            match Leave.insert leaves leave with
            | some saved => (LeaveResponse.ok leave, saved)
            | none => (LeaveResponse.serverError, leaves)

/-- The handler of `PUT /api/leaves/:id/approve`, called by administrator `adminId` at
date `now`. -/
def approveLeave (leaves : List Leave) (id : ℕ) (req : ApproveLeaveRequest) (adminId : ℕ)
    (now : Date) : LeaveResponse × List Leave :=
  match LeaveStatus.ofDecision req.status with
  | none => (LeaveResponse.validationErrors, leaves)
  | some status =>
    match Leave.findById leaves id with
    | none => (LeaveResponse.leaveNotFound, leaves)
    | some leave =>
      if leave.status ≠ LeaveStatus.pending then (LeaveResponse.alreadyProcessed, leaves)
      else
        let decided : Leave :=
          { leave with
            status := status, approvedBy := some adminId, approvedAt := some now,
            remarks := match req.remarks with
              | some text => if text = "" then leave.remarks else some text
              | none => leave.remarks }
        match Leave.save leaves decided with
        | some saved => (LeaveResponse.ok decided, saved)
        | none => (LeaveResponse.serverError, leaves)

/-- The field assignments of `PUT /api/leaves/:id` (lines 235-247): each supplied field
replaces the stored one, and `numberOfDays` is recomputed when a date was supplied. -/
def updatedLeave (diffDays : Date → Date → ℤ) (leave : Leave) (req : UpdateLeaveRequest) :
    Leave :=
  let leaveType := match req.leaveType.bind LeaveType.ofString with
    | some t => t
    | none => leave.leaveType
  let startDate := req.startDate.getD leave.startDate
  let endDate := req.endDate.getD leave.endDate
  let reason := match req.reason with
    | some text => if text = "" then leave.reason else text
    | none => leave.reason
  let isPaid := req.isPaid.getD leave.isPaid
  let numberOfDays : ℚ :=
    if req.startDate.isSome ∨ req.endDate.isSome then
      ((diffDays startDate endDate + 1 : ℤ) : ℚ)
    else leave.numberOfDays
  { leave with
    leaveType := leaveType, startDate := startDate, endDate := endDate, reason := reason,
    isPaid := isPaid, numberOfDays := numberOfDays }

/-- The handler of `PUT /api/leaves/:id`. -/
def updateLeave (diffDays : Date → Date → ℤ) (leaves : List Leave) (id : ℕ)
    (req : UpdateLeaveRequest) : LeaveResponse × List Leave :=
  if (∃ text, req.leaveType = some text ∧ LeaveType.ofString text = none)
      ∨ req.reason = some "" then
    (LeaveResponse.validationErrors, leaves)
  else
    match Leave.findById leaves id with
    | none => (LeaveResponse.leaveNotFound, leaves)
    | some leave =>
      if leave.status ≠ LeaveStatus.pending then (LeaveResponse.cannotUpdate, leaves)
      else
        match Leave.save leaves (updatedLeave diffDays leave req) with
        | some saved => (LeaveResponse.ok (updatedLeave diffDays leave req), saved)
        | none => (LeaveResponse.serverError, leaves)

/-- The handler of `DELETE /api/leaves/:id`. -/
def deleteLeave (leaves : List Leave) (id : ℕ) : LeaveResponse × List Leave :=
  match Leave.findById leaves id with
  | none => (LeaveResponse.leaveNotFound, leaves)
  | some leave =>
    if leave.status ≠ LeaveStatus.pending then (LeaveResponse.cannotDelete, leaves)
    else (LeaveResponse.removed, Leave.remove leaves leave)

/-- A leave operation, with what the handler reads besides the leave collection. -/
inductive LeaveOp where
  | create (employees : List Employee) (req : CreateLeaveRequest)
  | approve (id : ℕ) (req : ApproveLeaveRequest) (adminId : ℕ) (now : Date)
  | update (id : ℕ) (req : UpdateLeaveRequest)
  | delete (id : ℕ)

/-- Serving one leave operation. -/
def LeaveOp.serve (diffDays : Date → Date → ℤ) (leaves : List Leave) :
    LeaveOp → LeaveResponse × List Leave
  | LeaveOp.create employees req => createLeave diffDays employees leaves req
  | LeaveOp.approve id req adminId now => approveLeave leaves id req adminId now
  | LeaveOp.update id req => updateLeave diffDays leaves id req
  | LeaveOp.delete id => deleteLeave leaves id

/-- Two leaves in conflict: same employee, both pending or approved, and date ranges
that intersect, end dates included. -/
def Leave.conflicts (a b : Leave) : Bool :=
  decide (a.employeeId = b.employeeId)
    && (decide (a.status = LeaveStatus.pending) || decide (a.status = LeaveStatus.approved))
    && (decide (b.status = LeaveStatus.pending) || decide (b.status = LeaveStatus.approved))
    && Date.le a.startDate b.endDate && Date.le b.startDate a.endDate

/-- The no-overlap invariant of the leave store. -/
def noOverlap (leaves : List Leave) : Prop :=
  leaves.Pairwise (fun a b => Leave.conflicts a b = false)

/-- Serving a sequence of leave operations one at a time. -/
def serveLeaveOps (diffDays : Date → Date → ℤ) (leaves : List Leave) (ops : List LeaveOp) :
    List Leave :=
  ops.foldl (fun store op => (op.serve diffDays store).2) leaves

/-- The ways a leave operation can leave the collection: untouched, one new pending
document under a fresh identity, one pending document replaced under its identity with
the status kept or decided, or one pending document removed. -/
inductive LeaveEffect (leaves : List Leave) : List Leave → Prop where
  | unchanged : LeaveEffect leaves leaves
  | inserted (new : Leave) (hid : new.id = Leave.freshId leaves)
      (hstatus : new.status = LeaveStatus.pending) : LeaveEffect leaves (leaves ++ [new])
  | replaced (target changed : Leave) (hmem : target ∈ leaves)
      (hpending : target.status = LeaveStatus.pending) (hid : changed.id = target.id)
      (hstatus : changed.status = target.status ∨ changed.status = LeaveStatus.approved
        ∨ changed.status = LeaveStatus.rejected) :
      LeaveEffect leaves
        (leaves.map (fun stored => if stored.id = changed.id then changed else stored))
  | removed (target : Leave) (hmem : target ∈ leaves)
      (hpending : target.status = LeaveStatus.pending) :
      LeaveEffect leaves (Leave.remove leaves target)

/-! ## Sample data -/

/-- An active policy with the given interval, kind and value. -/
def samplePolicy (interval : ℚ) (incrementType : IncrementType) (incrementValue : ℚ) :
    IncrementSettings :=
  { interval := interval, incrementType := incrementType, incrementValue := incrementValue,
    isActive := true }


/-- An employee differing from a fixed template only in the two salary fields. -/
def sampleEmployee (baseSalary currentSalary : ℚ) : Employee :=
  { id := 1, baseSalary := baseSalary, currentSalary := currentSalary,
    dateOfJoining := { year := 2021, monthIndex := 0, day := 15 },
    status := EmployeeStatus.active }

/-- An approved leave of `numberOfDays` days starting on 6 May 2024. -/
def sampleLeave (numberOfDays : ℚ) (isPaid : Bool) : Leave :=
  { employeeId := 1, startDate := { year := 2024, monthIndex := 4, day := 6 },
    endDate := { year := 2024, monthIndex := 4, day := 7 }, numberOfDays := numberOfDays,
    status := LeaveStatus.approved, isPaid := isPaid, id := 1,
    leaveType := LeaveType.casual, reason := "Family event", remarks := none,
    approvedBy := some 1, approvedAt := some { year := 2024, monthIndex := 4, day := 2 } }

/-- The request to generate the payroll of employee 1 for May 2024. -/
def sampleGenerate : GenerateRequest := { employeeId := 1, month := 5, year := 2024 }

/-- The record generated for employee 1 (basic salary 60000) for May 2024, no leave. -/
def sampleRecord : PayrollRecord :=
  generatedRecord 1 5 2024 (calculateMonthlySalary (sampleEmployee 60000 60000) 5 2024 [])

/-- A 2-day unpaid leave of employee 1 starting on 6 May 2024 that was rejected. -/
def rejectedLeave : Leave := { sampleLeave 2 false with status := LeaveStatus.rejected }

/-- A form payload for employee 1, May 2024, basic salary 1000, with no itemised
components and the given gross and net figures. -/
def sampleManual (grossSalary netSalary : Option ℚ) : ManualRequest :=
  { employeeId := 1, month := 5, year := 2024, basicSalary := 1000, allowances := none,
    bonuses := none, deductions := none, workingDays := none, leaves := none,
    remarks := none, grossSalary := grossSalary, netSalary := netSalary }

/-- Employee 2: inactive, base and current salary 50000. -/
def inactiveEmployee : Employee :=
  { sampleEmployee 50000 50000 with id := 2, status := EmployeeStatus.inactive }

/-- A clock under which every employee has 3 whole years of service. -/
def threeYears : Date → ℤ := fun _ => 3

/-- A 60-day unpaid leave of employee 1 from 6 May 2024 to 4 July 2024, approved. -/
def longLeave : Leave :=
  { sampleLeave 60 false with endDate := { year := 2024, monthIndex := 6, day := 4 } }

/-- A pending unpaid leave of employee 1 in May 2024, from `startDay` to `endDay`. -/
def pendingLeave (id : ℕ) (startDay endDay : ℤ) : Leave :=
  { employeeId := 1, startDate := { year := 2024, monthIndex := 4, day := startDay },
    endDate := { year := 2024, monthIndex := 4, day := endDay },
    numberOfDays := ((endDay - startDay + 1 : ℤ) : ℚ), status := LeaveStatus.pending,
    isPaid := false, id := id, leaveType := LeaveType.casual, reason := "Family event",
    remarks := none, approvedBy := none, approvedAt := none }

/-- The day difference of two dates of the same month. -/
def sameMonthDays : Date → Date → ℤ := fun start stop => stop.day - start.day

/-- An update that moves the start date to 7 May 2024. -/
def moveStart : UpdateLeaveRequest :=
  { leaveType := none, startDate := some { year := 2024, monthIndex := 4, day := 7 },
    endDate := none, reason := none, isPaid := none }

/-- A request for a casual leave of employee 1 from 7 to 11 May 2024. -/
def overlappingRequest : CreateLeaveRequest :=
  { employeeId := 1, leaveType := "casual",
    startDate := { year := 2024, monthIndex := 4, day := 7 },
    endDate := { year := 2024, monthIndex := 4, day := 11 }, reason := "Family event",
    isPaid := none }

/-! ## Auxiliary facts -/

theorem round_add_int (x : ℚ) (k : ℤ) : Math.round (x + k) = Math.round x + k := by
  unfold Math.round
  rw [show x + (k : ℚ) + 1 / 2 = x + 1 / 2 + (k : ℚ) by ring, Int.floor_add_int]
  push_cast
  ring

theorem round_sub_int (x : ℚ) (k : ℤ) : Math.round (x - k) = Math.round x - k := by
  have h := round_add_int x (-k)
  push_cast at h
  simpa [sub_eq_add_neg] using h

theorem round_int (k : ℤ) : Math.round (k : ℚ) = k := by
  have h := round_add_int 0 k
  have h0 : Math.round 0 = 0 := by
    unfold Math.round
    norm_num
  simpa [h0] using h

/-- Evaluation of `Math.round` at a given number. -/
theorem round_eq_of (x : ℚ) (k : ℤ) (h1 : (k : ℚ) ≤ x + 1 / 2) (h2 : x + 1 / 2 < k + 1) :
    Math.round x = k := by
  unfold Math.round
  exact_mod_cast congrArg (Int.cast : ℤ → ℚ) (Int.floor_eq_iff.mpr ⟨h1, h2⟩)

theorem round_isWhole (x : ℚ) : IsWhole (Math.round x) := ⟨⌊x + 1 / 2⌋, rfl⟩

theorem round_lower (x : ℚ) : x - 1 / 2 < Math.round x := by
  unfold Math.round
  have := Int.lt_floor_add_one (x + 1 / 2)
  linarith

theorem round_upper (x : ℚ) : Math.round x ≤ x + 1 / 2 := by
  unfold Math.round
  exact Int.floor_le (x + 1 / 2)

/-- The unrounded gross of `calculateMonthlySalary`, in terms of the basic salary. -/
theorem monthly_gross (employee : Employee) (month year : ℤ) (leaves : List Leave) :
    (calculateMonthlySalary employee month year leaves).grossSalary
      = Math.round (2 * employee.currentSalary + 3500) := by
  simp only [calculateMonthlySalary, sumValues, Allowances.values, Bonuses.values,
    List.foldl]
  congr 1
  ring

/-- The net figure of `calculateMonthlySalary` rounds the unrounded gross less the
deductions. -/
theorem monthly_net (employee : Employee) (month year : ℤ) (leaves : List Leave) :
    (calculateMonthlySalary employee month year leaves).netSalary
      = Math.round (2 * employee.currentSalary + 3500
          - (calculateMonthlySalary employee month year leaves).totalDeductions) := by
  simp only [calculateMonthlySalary, sumValues, Allowances.values, Bonuses.values,
    Deductions.values, List.foldl, SalaryData.totalDeductions]
  congr 1
  ring

/-- The loop under a percentage policy is the compound closed form. -/
theorem incrementLoop_percentage (s : IncrementSettings)
    (h : s.incrementType = IncrementType.percentage) (n : ℕ) (c : ℚ) :
    incrementLoop s n c = c * (1 + s.incrementValue / 100) ^ n := by
  induction n generalizing c with
  | zero => simp [incrementLoop]
  | succ n ih =>
    simp only [incrementLoop, incrementStep, h, if_true, ih]
    ring

/-- The loop under a fixed-amount policy adds the value `n` times. -/
theorem incrementLoop_fixed (s : IncrementSettings)
    (h : s.incrementType = IncrementType.fixed) (n : ℕ) (c : ℚ) :
    incrementLoop s n c = c + n * s.incrementValue := by
  induction n generalizing c with
  | zero => simp [incrementLoop]
  | succ n ih =>
    simp only [incrementLoop, incrementStep, h, ih, reduceCtorEq, if_false]
    push_cast
    ring

/-- With an active policy of positive interval that the years of service have reached,
`calculateCurrentSalary` returns the rounded value of the loop. -/
theorem calculateCurrentSalary_loop (store : List IncrementSettings) (s : IncrementSettings)
    (employee : Employee) (y : ℤ) (hactive : IncrementSettings.findOne store = some s)
    (hint : 0 < s.interval) (hy : s.interval ≤ y) :
    calculateCurrentSalary store employee y
      = some (Math.round
          (incrementLoop s (Math.floor ((y : ℚ) / s.interval)).toNat employee.baseSalary)) := by
  simp [calculateCurrentSalary, hactive, not_lt.mpr hy, hint.ne']

/-- Before the first interval has elapsed, or without an active policy, the base salary
is returned as stored. -/
theorem calculateCurrentSalary_base (store : List IncrementSettings) (employee : Employee)
    (y : ℤ)
    (h : IncrementSettings.findOne store = none
      ∨ ∃ s, IncrementSettings.findOne store = some s ∧ (y : ℚ) < s.interval) :
    calculateCurrentSalary store employee y = some employee.baseSalary := by
  rcases h with h | ⟨s, hs, hlt⟩
  · simp [calculateCurrentSalary, h]
  · simp [calculateCurrentSalary, hs, hlt]

/-- The loop bound is a natural number once the interval has elapsed. -/
theorem floor_years_nonneg (s : IncrementSettings) (y : ℤ) (hint : 0 < s.interval)
    (hy : s.interval ≤ y) :
    ((Math.floor ((y : ℚ) / s.interval)).toNat : ℤ) = Math.floor ((y : ℚ) / s.interval) := by
  apply Int.toNat_of_nonneg
  unfold Math.floor
  exact Int.floor_nonneg.mpr (div_nonneg (le_trans hint.le hy) hint.le)

/-! ## Salary projection -/

/-- C2: under an active percentage policy with interval at least 1 and a non-negative
value, once the years of service reach the interval the result is
`round(base * (1 + v/100)^n)` with `n = floor(y / interval)`: the loop equals the
compound closed form. -/
theorem calculateCurrentSalary_percentage_compound (store : List IncrementSettings)
    (s : IncrementSettings) (employee : Employee) (y : ℤ)
    (hactive : IncrementSettings.findOne store = some s)
    (hkind : s.incrementType = IncrementType.percentage)
    (hint : 1 ≤ s.interval) (_hv : 0 ≤ s.incrementValue) (hy : s.interval ≤ y) :
    ∃ n : ℕ, (n : ℤ) = Math.floor ((y : ℚ) / s.interval) ∧
      calculateCurrentSalary store employee y
        = some (Math.round (employee.baseSalary * (1 + s.incrementValue / 100) ^ n)) := by
  have hpos : 0 < s.interval := lt_of_lt_of_le one_pos hint
  refine ⟨(Math.floor ((y : ℚ) / s.interval)).toNat, floor_years_nonneg s y hpos hy, ?_⟩
  rw [calculateCurrentSalary_loop store s employee y hactive hpos hy,
    incrementLoop_percentage s hkind]

/-- C2 (witness): base 50000, 10% every year, 3 years of service gives 66550. -/
theorem calculateCurrentSalary_percentage_compound_witness :
    calculateCurrentSalary [samplePolicy 1 IncrementType.percentage 10]
      (sampleEmployee 50000 50000) 3 = some 66550 := by
  obtain ⟨n, hn, h⟩ := calculateCurrentSalary_percentage_compound
    [samplePolicy 1 IncrementType.percentage 10]
    (samplePolicy 1 IncrementType.percentage 10) (sampleEmployee 50000 50000) 3 rfl rfl
    (by norm_num [samplePolicy]) (by norm_num [samplePolicy]) (by norm_num [samplePolicy])
  have hn3 : n = 3 := by
    have : (n : ℤ) = 3 := by
      rw [hn]
      simp [Math.floor, samplePolicy]
    exact_mod_cast this
  subst hn3
  rw [h]
  congr 1
  exact round_eq_of _ 66550 (by norm_num [sampleEmployee, samplePolicy])
    (by norm_num [sampleEmployee, samplePolicy])

/-- C4: without an active policy, or while the whole years of service are strictly below
the active policy's interval, `calculateCurrentSalary` returns `employee.baseSalary`
itself, neither rounded nor incremented. -/
theorem calculateCurrentSalary_unchanged (store : List IncrementSettings)
    (employee : Employee) (y : ℤ)
    (h : IncrementSettings.findOne store = none
      ∨ ∃ s, IncrementSettings.findOne store = some s ∧ (y : ℚ) < s.interval) :
    calculateCurrentSalary store employee y = some employee.baseSalary := by
  rcases h with h | ⟨s, hs, hlt⟩
  · simp [calculateCurrentSalary, h]
  · simp [calculateCurrentSalary, hs, hlt]

/-- C4 (witness): base 1000.5 under a 10% policy every 5 years, 3 years of service. -/
theorem calculateCurrentSalary_unchanged_witness :
    calculateCurrentSalary [samplePolicy 5 IncrementType.percentage 10]
      (sampleEmployee (2001 / 2) 0) 3 = some (2001 / 2) :=
  calculateCurrentSalary_unchanged [samplePolicy 5 IncrementType.percentage 10]
    (sampleEmployee (2001 / 2) 0) 3
    (Or.inr ⟨samplePolicy 5 IncrementType.percentage 10, rfl, by norm_num [samplePolicy]⟩)

/-- C1 (amended): for every compiled record the returned gross less the six returned
deductions equals the returned net exactly when the deductions total a whole number,
and in every case the two sides differ by less than one currency unit. -/
theorem net_reconciles_iff_whole_deductions (employee : Employee) (month year : ℤ)
    (leaves : List Leave) :
    ((calculateMonthlySalary employee month year leaves).grossSalary
        - (calculateMonthlySalary employee month year leaves).totalDeductions
        = (calculateMonthlySalary employee month year leaves).netSalary
      ↔ IsWhole (calculateMonthlySalary employee month year leaves).totalDeductions)
    ∧ |(calculateMonthlySalary employee month year leaves).grossSalary
        - (calculateMonthlySalary employee month year leaves).totalDeductions
        - (calculateMonthlySalary employee month year leaves).netSalary| < 1 := by
  rw [monthly_net, monthly_gross]
  generalize (calculateMonthlySalary employee month year leaves).totalDeductions = d
  generalize 2 * employee.currentSalary + 3500 = g
  refine ⟨⟨fun h => ?_, fun h => ?_⟩, ?_⟩
  · obtain ⟨a, ha⟩ := round_isWhole g
    obtain ⟨b, hb⟩ := round_isWhole (g - d)
    refine ⟨a - b, ?_⟩
    push_cast
    rw [← ha, ← hb]
    linarith
  · obtain ⟨k, rfl⟩ := h
    rw [round_sub_int]
  · have h1 := round_lower g
    have h2 := round_upper g
    have h3 := round_lower (g - d)
    have h4 := round_upper (g - d)
    rw [abs_lt]
    constructor <;> linarith

/-- C1 (as stated) fails: with basic salary 1000 and no leave the record has gross 5500,
deductions 237.5 and net 5263. -/
theorem net_reconciles_counterexample :
    ¬ ((calculateMonthlySalary (sampleEmployee 1000 1000) 5 2024 []).grossSalary
        - (calculateMonthlySalary (sampleEmployee 1000 1000) 5 2024 []).totalDeductions
        = (calculateMonthlySalary (sampleEmployee 1000 1000) 5 2024 []).netSalary) := by
  have hd : (calculateMonthlySalary (sampleEmployee 1000 1000) 5 2024 []).totalDeductions
      = 475 / 2 := by
    simp [calculateMonthlySalary, SalaryData.totalDeductions, calculateUnpaidLeaves,
      sampleEmployee]
    norm_num
  rw [monthly_net, monthly_gross, hd]
  have hg : Math.round (2 * (sampleEmployee 1000 1000).currentSalary + 3500) = 5500 :=
    round_eq_of _ 5500 (by norm_num [sampleEmployee]) (by norm_num [sampleEmployee])
  have hn : Math.round (2 * (sampleEmployee 1000 1000).currentSalary + 3500 - 475 / 2)
      = 5263 :=
    round_eq_of _ 5263 (by norm_num [sampleEmployee]) (by norm_num [sampleEmployee])
  rw [hg, hn]
  norm_num

/-- C7: the returned gross is `Math.round` of the returned basic salary plus the four
returned allowances plus the three returned bonuses, the basic salary is
`employee.currentSalary`, and so the gross is `round(2 * basic + 3500)`. -/
theorem grossSalary_from_components (employee : Employee) (month year : ℤ)
    (leaves : List Leave) :
    (calculateMonthlySalary employee month year leaves).grossSalary
        = Math.round ((calculateMonthlySalary employee month year leaves).basicSalary
            + (calculateMonthlySalary employee month year leaves).totalAllowances
            + (calculateMonthlySalary employee month year leaves).totalBonuses)
      ∧ (calculateMonthlySalary employee month year leaves).basicSalary
        = employee.currentSalary
      ∧ (calculateMonthlySalary employee month year leaves).grossSalary
        = Math.round (2 * employee.currentSalary + 3500) := by
  refine ⟨?_, rfl, monthly_gross employee month year leaves⟩
  simp only [calculateMonthlySalary, sumValues, Allowances.values, Bonuses.values,
    List.foldl, SalaryData.totalAllowances, SalaryData.totalBonuses]
  congr 1
  ring

/-- C8: with `currentSalary = basic` the returned deductions are tax `0.10 * basic`,
pf `0.12 * basic`, esi `0.0175 * basic`, loan `0`, other `0` and leave
`unpaidDays * (basic / 30)`, `unpaidDays` being `calculateUnpaidLeaves` for the target
month and year. -/
theorem deductions_itemised (employee : Employee) (basic : ℚ) (month year : ℤ)
    (leaves : List Leave) (hb : employee.currentSalary = basic) :
    (calculateMonthlySalary employee month year leaves).deductions.tax = 0.10 * basic
      ∧ (calculateMonthlySalary employee month year leaves).deductions.pf = 0.12 * basic
      ∧ (calculateMonthlySalary employee month year leaves).deductions.esi = 0.0175 * basic
      ∧ (calculateMonthlySalary employee month year leaves).deductions.loan = 0
      ∧ (calculateMonthlySalary employee month year leaves).deductions.other = 0
      ∧ (calculateMonthlySalary employee month year leaves).deductions.leave
        = calculateUnpaidLeaves leaves month year * (basic / 30) := by
  subst hb
  refine ⟨?_, ?_, ?_, rfl, rfl, rfl⟩ <;> simp only [calculateMonthlySalary] <;> ring

/-- C8 (witness): basic 60000 with one unpaid leave of 2 days in May 2024: the leave
deduction is 4000, tax 6000, pf 7200 and esi 1050. -/
theorem deductions_itemised_witness :
    calculateUnpaidLeaves [sampleLeave 2 false] 5 2024 = 2
      ∧ (calculateMonthlySalary (sampleEmployee 60000 60000) 5 2024
          [sampleLeave 2 false]).deductions.leave = 4000
      ∧ (calculateMonthlySalary (sampleEmployee 60000 60000) 5 2024
          [sampleLeave 2 false]).deductions.tax = 6000 := by
  have hu : calculateUnpaidLeaves [sampleLeave 2 false] 5 2024 = 2 := by
    simp [calculateUnpaidLeaves, sampleLeave, moment.month, moment.year]
  have h := deductions_itemised (sampleEmployee 60000 60000) 60000 5 2024
    [sampleLeave 2 false] rfl
  refine ⟨hu, ?_, ?_⟩
  · rw [h.2.2.2.2.2, hu]
    norm_num
  · rw [h.1]
    norm_num

/-- C9: with `currentSalary = basic` the returned allowances are hra `0.40 * basic`,
da `0.50 * basic`, ta `2000`, other `1000` and the bonuses performance `0.10 * basic`,
attendance `500`, other `0`, whatever the leave list, month and year. -/
theorem allowances_bonuses_itemised (employee : Employee) (basic : ℚ) (month year : ℤ)
    (leaves : List Leave) (hb : employee.currentSalary = basic) :
    (calculateMonthlySalary employee month year leaves).allowances.hra = 0.40 * basic
      ∧ (calculateMonthlySalary employee month year leaves).allowances.da = 0.50 * basic
      ∧ (calculateMonthlySalary employee month year leaves).allowances.ta = 2000
      ∧ (calculateMonthlySalary employee month year leaves).allowances.other = 1000
      ∧ (calculateMonthlySalary employee month year leaves).bonuses.performance
        = 0.10 * basic
      ∧ (calculateMonthlySalary employee month year leaves).bonuses.attendance = 500
      ∧ (calculateMonthlySalary employee month year leaves).bonuses.other = 0 := by
  subst hb
  refine ⟨?_, ?_, rfl, rfl, ?_, rfl, rfl⟩ <;> simp only [calculateMonthlySalary] <;> ring

/-- C9 (witness): basic 60000 gives hra 24000, da 30000 and performance bonus 6000, here
with a leave list and period that play no part. -/
theorem allowances_bonuses_itemised_witness :
    (calculateMonthlySalary (sampleEmployee 60000 60000) 7 2023
        [sampleLeave 2 false, sampleLeave 3 true]).allowances.hra = 24000
      ∧ (calculateMonthlySalary (sampleEmployee 60000 60000) 7 2023
        [sampleLeave 2 false, sampleLeave 3 true]).allowances.da = 30000
      ∧ (calculateMonthlySalary (sampleEmployee 60000 60000) 7 2023
        [sampleLeave 2 false, sampleLeave 3 true]).bonuses.performance = 6000 := by
  have h := allowances_bonuses_itemised (sampleEmployee 60000 60000) 60000 7 2023
    [sampleLeave 2 false, sampleLeave 3 true] rfl
  refine ⟨?_, ?_, ?_⟩
  · rw [h.1]
    norm_num
  · rw [h.2.1]
    norm_num
  · rw [h.2.2.2.2.1]
    norm_num

/-- C10: the returned `workingDays` is `30 − unpaidLeaves`, where the returned
`unpaidLeaves` is the unpaid-day count `calculateUnpaidLeaves` gives for that month. -/
theorem workingDays_thirty_minus_unpaid (employee : Employee) (month year : ℤ)
    (leaves : List Leave) (u : ℚ) (hu : calculateUnpaidLeaves leaves month year = u) :
    (calculateMonthlySalary employee month year leaves).workingDays
        = 30 - (calculateMonthlySalary employee month year leaves).unpaidLeaves
      ∧ (calculateMonthlySalary employee month year leaves).unpaidLeaves = u
      ∧ (calculateMonthlySalary employee month year leaves).workingDays = 30 - u := by
  subst hu
  exact ⟨rfl, rfl, rfl⟩

/-- C10 (witness): 2 unpaid days in May 2024 give 28 working days. -/
theorem workingDays_thirty_minus_unpaid_witness :
    (calculateMonthlySalary (sampleEmployee 60000 60000) 5 2024
        [sampleLeave 2 false]).workingDays = 28 := by
  have hu : calculateUnpaidLeaves [sampleLeave 2 false] 5 2024 = 2 := by
    simp [calculateUnpaidLeaves, sampleLeave, moment.month, moment.year]
  rw [(workingDays_thirty_minus_unpaid (sampleEmployee 60000 60000) 5 2024
    [sampleLeave 2 false] 2 hu).2.2]
  norm_num

/-! ## Leave aggregation -/

/-- The `reduce` of the leave counters is the starting total plus the sum of the days. -/
theorem foldl_numberOfDays (leaves : List Leave) (a : ℚ) :
    leaves.foldl (fun total leave => total + leave.numberOfDays) a
      = a + (leaves.map (fun leave => leave.numberOfDays)).sum := by
  induction leaves generalizing a with
  | nil => simp
  | cons l ls ih =>
    simp only [List.foldl_cons, ih, List.map_cons, List.sum_cons]
    ring

/-- Summing over a filtered list is summing the guarded terms over the whole list. -/
theorem sum_filter_numberOfDays (p : Leave → Bool) (leaves : List Leave) :
    ((leaves.filter p).map (fun leave => leave.numberOfDays)).sum
      = (leaves.map (fun leave => if p leave = true then leave.numberOfDays else 0)).sum := by
  induction leaves with
  | nil => simp
  | cons l ls ih =>
    by_cases h : p l = true
    · simp [List.filter_cons, h, ih]
    · simp [List.filter_cons, h, ih]

/-- The unpaid counter as a sum of per-leave contributions. -/
theorem calculateUnpaidLeaves_eq_sum (leaves : List Leave) (month year : ℤ) :
    calculateUnpaidLeaves leaves month year
      = (leaves.map (leaveContribution false month year)).sum := by
  unfold calculateUnpaidLeaves
  rw [foldl_numberOfDays, sum_filter_numberOfDays, zero_add]
  congr 1
  apply List.map_congr_left
  intro l _
  simp only [leaveContribution, startsInMonth, moment.month, moment.year]
  cases l.isPaid <;> simp

/-- The paid counter as a sum of per-leave contributions. -/
theorem calculatePaidLeaves_eq_sum (leaves : List Leave) (month year : ℤ) :
    calculatePaidLeaves leaves month year
      = (leaves.map (leaveContribution true month year)).sum := by
  unfold calculatePaidLeaves
  rw [foldl_numberOfDays, sum_filter_numberOfDays, zero_add]
  congr 1
  apply List.map_congr_left
  intro l _
  simp only [leaveContribution, startsInMonth, moment.month, moment.year]
  cases l.isPaid <;> simp

/-- C11: `calculatePaidLeaves` is the sum of `numberOfDays` over exactly the leaves with
`isPaid` true that start in the given month and year, `calculateUnpaidLeaves` the same
sum over those with `isPaid` false; both are 0 on the empty list and on a list none of
whose leaves starts in the month. -/
theorem leave_counters_sum (leaves : List Leave) (month year : ℤ) :
    calculatePaidLeaves leaves month year
        = (leaves.map (fun leave =>
            if startsInMonth leave month year ∧ leave.isPaid = true
            then leave.numberOfDays else 0)).sum
      ∧ calculateUnpaidLeaves leaves month year
        = (leaves.map (fun leave =>
            if startsInMonth leave month year ∧ leave.isPaid = false
            then leave.numberOfDays else 0)).sum
      ∧ calculatePaidLeaves [] month year = 0
      ∧ calculateUnpaidLeaves [] month year = 0
      ∧ ((∀ leave ∈ leaves, ¬ startsInMonth leave month year) →
          calculatePaidLeaves leaves month year = 0
            ∧ calculateUnpaidLeaves leaves month year = 0) := by
  refine ⟨calculatePaidLeaves_eq_sum leaves month year,
    calculateUnpaidLeaves_eq_sum leaves month year, rfl, rfl, fun h => ?_⟩
  rw [calculatePaidLeaves_eq_sum, calculateUnpaidLeaves_eq_sum]
  constructor <;>
  · apply List.sum_eq_zero
    intro x hx
    obtain ⟨l, hl, rfl⟩ := List.mem_map.mp hx
    simp [leaveContribution, h l hl]

/-- C11 (witness): a 2-day unpaid and a 3-day paid leave starting in May 2024 count for
May 2024 and give 0 for June 2024, where no leave starts. -/
theorem leave_counters_sum_witness :
    calculatePaidLeaves [sampleLeave 2 false, sampleLeave 3 true] 5 2024 = 3
      ∧ calculateUnpaidLeaves [sampleLeave 2 false, sampleLeave 3 true] 5 2024 = 2
      ∧ calculatePaidLeaves [sampleLeave 2 false, sampleLeave 3 true] 6 2024 = 0
      ∧ calculateUnpaidLeaves [sampleLeave 2 false, sampleLeave 3 true] 6 2024 = 0 := by
  have h := leave_counters_sum [sampleLeave 2 false, sampleLeave 3 true] 5 2024
  have h6 := (leave_counters_sum [sampleLeave 2 false, sampleLeave 3 true] 6 2024).2.2.2.2
    (by simp [startsInMonth, sampleLeave])
  refine ⟨?_, ?_, h6.1, h6.2⟩
  · rw [h.1]
    simp [startsInMonth, sampleLeave]
  · rw [h.2.1]
    simp [startsInMonth, sampleLeave]

/-- C12: a leave is attributed wholly to the month of its start date: inserted anywhere
in a leave list it adds its full `numberOfDays` to the counter matching its paid flag
for the (month, year) of its `startDate`, adds 0 for every other (month, year), and the
counters do not depend on its `endDate`. -/
theorem leave_attributed_to_start_month (before after : List Leave) (leave : Leave)
    (month year : ℤ) (endDate : Date) :
    calculatePaidLeaves (before ++ leave :: after) month year
        = calculatePaidLeaves (before ++ after) month year
          + (if leave.startDate.monthIndex + 1 = month ∧ leave.startDate.year = year
              then (if leave.isPaid = true then leave.numberOfDays else 0) else 0)
      ∧ calculateUnpaidLeaves (before ++ leave :: after) month year
        = calculateUnpaidLeaves (before ++ after) month year
          + (if leave.startDate.monthIndex + 1 = month ∧ leave.startDate.year = year
              then (if leave.isPaid = true then 0 else leave.numberOfDays) else 0)
      ∧ calculatePaidLeaves (before ++ { leave with endDate := endDate } :: after) month year
        = calculatePaidLeaves (before ++ leave :: after) month year
      ∧ calculateUnpaidLeaves (before ++ { leave with endDate := endDate } :: after)
          month year
        = calculateUnpaidLeaves (before ++ leave :: after) month year := by
  simp only [calculatePaidLeaves_eq_sum, calculateUnpaidLeaves_eq_sum, List.map_append,
    List.map_cons, List.sum_append, List.sum_cons, leaveContribution, startsInMonth]
  refine ⟨?_, ?_, trivial, trivial⟩
  · by_cases h1 : leave.startDate.monthIndex + 1 = month ∧ leave.startDate.year = year
    all_goals cases leave.isPaid
    all_goals simp [h1]
    all_goals ring
  · by_cases h1 : leave.startDate.monthIndex + 1 = month ∧ leave.startDate.year = year
    all_goals cases leave.isPaid
    all_goals simp [h1]
    all_goals ring

/-! ## Period uniqueness -/

/-- `findOne` misses exactly when no stored record carries the key. -/
theorem findOne_eq_none_iff (payrolls : List PayrollRecord) (employeeId : ℕ)
    (month year : ℤ) :
    Payroll.findOne payrolls employeeId month year = none
      ↔ (employeeId, month, year) ∉ payrolls.map PayrollRecord.key := by
  simp only [Payroll.findOne, List.find?_eq_none, List.mem_map, PayrollRecord.key,
    Prod.mk.injEq, Bool.and_eq_true, decide_eq_true_eq, not_exists, not_and, and_imp]

/-- A successful `save()` appends the document, whose key was free. -/
theorem save_eq_some (payrolls saved : List PayrollRecord) (p : PayrollRecord)
    (h : Payroll.save payrolls p = some saved) :
    saved = payrolls ++ [p] ∧ Payroll.schemaValid p = true
      ∧ Payroll.findOne payrolls p.employeeId p.month p.year = none := by
  unfold Payroll.save at h
  split at h
  · rename_i hc
    exact ⟨(Option.some.inj h).symm, hc.1, hc.2⟩
  · exact absurd h (by simp)

/-- Appending a record with a free key keeps the keys distinct. -/
theorem periodUnique_append (payrolls : List PayrollRecord) (p : PayrollRecord)
    (hu : periodUnique payrolls)
    (hfree : Payroll.findOne payrolls p.employeeId p.month p.year = none) :
    periodUnique (payrolls ++ [p]) := by
  unfold periodUnique at *
  rw [List.map_append, List.nodup_append]
  refine ⟨hu, by simp, ?_⟩
  have hk := (findOne_eq_none_iff payrolls p.employeeId p.month p.year).mp hfree
  intro a ha hb
  simp only [List.map_cons, List.map_nil, List.mem_singleton] at hb
  subst hb
  exact hk ha

/-- The validation gate of `POST /api/payroll/generate`. -/
theorem generatePayroll_invalid (employees : List Employee) (leaveStore : List Leave)
    (payrolls : List PayrollRecord) (req : GenerateRequest)
    (hv : ¬ (isIntBetween req.month 1 12 = true ∧ isIntAtLeast req.year 2020 = true)) :
    generatePayroll employees leaveStore payrolls req
      = (Response.validationErrors, payrolls) := by
  simp only [generatePayroll, hv, not_false_eq_true, if_true]

/-- The employee lookup of `POST /api/payroll/generate`. -/
theorem generatePayroll_notFound (employees : List Employee) (leaveStore : List Leave)
    (payrolls : List PayrollRecord) (req : GenerateRequest)
    (hv : isIntBetween req.month 1 12 = true ∧ isIntAtLeast req.year 2020 = true)
    (he : Employee.findById employees req.employeeId = none) :
    generatePayroll employees leaveStore payrolls req
      = (Response.employeeNotFound, payrolls) := by
  simp only [generatePayroll, hv, and_self, not_true_eq_false, if_false, he]

/-- The uniqueness guard of `POST /api/payroll/generate`. -/
theorem generatePayroll_exists (employees : List Employee) (leaveStore : List Leave)
    (payrolls : List PayrollRecord) (req : GenerateRequest) (employee : Employee)
    (existing : PayrollRecord)
    (hv : isIntBetween req.month 1 12 = true ∧ isIntAtLeast req.year 2020 = true)
    (he : Employee.findById employees req.employeeId = some employee)
    (hx : Payroll.findOne payrolls req.employeeId req.month.num req.year.num
      = some existing) :
    generatePayroll employees leaveStore payrolls req
      = (Response.payrollExists, payrolls) := by
  simp only [generatePayroll, hv, and_self, not_true_eq_false, if_false, he, hx]

/-- Past its three guards `POST /api/payroll/generate` compiles the record from the
leaves `Leave.find` returns and saves it. -/
theorem generatePayroll_compile (employees : List Employee) (leaveStore : List Leave)
    (payrolls : List PayrollRecord) (req : GenerateRequest) (employee : Employee)
    (hv : isIntBetween req.month 1 12 = true ∧ isIntAtLeast req.year 2020 = true)
    (he : Employee.findById employees req.employeeId = some employee)
    (hx : Payroll.findOne payrolls req.employeeId req.month.num req.year.num = none) :
    generatePayroll employees leaveStore payrolls req
      = match Payroll.save payrolls (generatedRecord req.employeeId req.month.num
            req.year.num (calculateMonthlySalary employee req.month.num req.year.num
              (Leave.find leaveStore req.employeeId
                { year := req.year.num, monthIndex := req.month.num - 1, day := 1 }
                { year := req.year.num, monthIndex := req.month.num, day := 1 }))) with
        | some saved => (Response.created (generatedRecord req.employeeId req.month.num
            req.year.num (calculateMonthlySalary employee req.month.num req.year.num
              (Leave.find leaveStore req.employeeId
                { year := req.year.num, monthIndex := req.month.num - 1, day := 1 }
                { year := req.year.num, monthIndex := req.month.num, day := 1 }))), saved)
        | none => (Response.serverError, payrolls) := by
  simp only [generatePayroll, hv, and_self, not_true_eq_false, if_false, he, hx]

/-- The validation gate of `POST /api/payroll`. -/
theorem createPayroll_invalid (employees : List Employee) (payrolls : List PayrollRecord)
    (req : ManualRequest)
    (hv : ¬ (isIntBetween req.month 1 12 = true ∧ isIntAtLeast req.year 2020 = true
      ∧ isFloatAtLeast req.basicSalary 0 = true)) :
    createPayroll employees payrolls req = (Response.validationErrors, payrolls) := by
  simp only [createPayroll, hv, not_false_eq_true, if_true]

/-- The employee lookup of `POST /api/payroll`. -/
theorem createPayroll_notFound (employees : List Employee) (payrolls : List PayrollRecord)
    (req : ManualRequest)
    (hv : isIntBetween req.month 1 12 = true ∧ isIntAtLeast req.year 2020 = true
      ∧ isFloatAtLeast req.basicSalary 0 = true)
    (he : Employee.findById employees req.employeeId = none) :
    createPayroll employees payrolls req = (Response.employeeNotFound, payrolls) := by
  simp only [createPayroll, hv, and_self, not_true_eq_false, if_false, he]

/-- The uniqueness guard of `POST /api/payroll`. -/
theorem createPayroll_exists (employees : List Employee) (payrolls : List PayrollRecord)
    (req : ManualRequest) (employee : Employee) (existing : PayrollRecord)
    (hv : isIntBetween req.month 1 12 = true ∧ isIntAtLeast req.year 2020 = true
      ∧ isFloatAtLeast req.basicSalary 0 = true)
    (he : Employee.findById employees req.employeeId = some employee)
    (hx : Payroll.findOne payrolls req.employeeId req.month.num req.year.num
      = some existing) :
    createPayroll employees payrolls req = (Response.payrollExists, payrolls) := by
  simp only [createPayroll, hv, and_self, not_true_eq_false, if_false, he, hx]

/-- Past its three guards `POST /api/payroll` saves the record built from the form. -/
theorem createPayroll_compile (employees : List Employee) (payrolls : List PayrollRecord)
    (req : ManualRequest) (employee : Employee)
    (hv : isIntBetween req.month 1 12 = true ∧ isIntAtLeast req.year 2020 = true
      ∧ isFloatAtLeast req.basicSalary 0 = true)
    (he : Employee.findById employees req.employeeId = some employee)
    (hx : Payroll.findOne payrolls req.employeeId req.month.num req.year.num = none) :
    createPayroll employees payrolls req
      = match Payroll.save payrolls (manualRecord req) with
        | some saved => (Response.created (manualRecord req), saved)
        | none => (Response.serverError, payrolls) := by
  simp only [createPayroll, hv, and_self, not_true_eq_false, if_false, he, hx]

/-- What `POST /api/payroll/generate` can do to the collection: nothing, or append one
valid record under the requested key, which was free. -/
theorem generatePayroll_store (employees : List Employee) (leaveStore : List Leave)
    (payrolls : List PayrollRecord) (req : GenerateRequest) :
    (generatePayroll employees leaveStore payrolls req).2 = payrolls
      ∨ ∃ p, generatePayroll employees leaveStore payrolls req
            = (Response.created p, payrolls ++ [p])
          ∧ Payroll.findOne payrolls p.employeeId p.month p.year = none
          ∧ p.key = (req.employeeId, req.month.num, req.year.num) := by
  by_cases hv : isIntBetween req.month 1 12 = true ∧ isIntAtLeast req.year 2020 = true
  · cases he : Employee.findById employees req.employeeId with
    | none => exact Or.inl (by rw [generatePayroll_notFound _ _ _ _ hv he])
    | some employee =>
      cases hx : Payroll.findOne payrolls req.employeeId req.month.num req.year.num with
      | some existing =>
        exact Or.inl (by rw [generatePayroll_exists _ _ _ _ _ _ hv he hx])
      | none =>
        rw [generatePayroll_compile _ _ _ _ _ hv he hx]
        split
        · rename_i saved hs
          obtain ⟨h1, _, h3⟩ := save_eq_some _ _ _ hs
          exact Or.inr ⟨_, by rw [h1], h3, rfl⟩
        · exact Or.inl rfl
  · exact Or.inl (by rw [generatePayroll_invalid _ _ _ _ hv])

/-- What `POST /api/payroll` can do to the collection: nothing, or append the record
built from the form, whose key was free. -/
theorem createPayroll_store (employees : List Employee) (payrolls : List PayrollRecord)
    (req : ManualRequest) :
    (createPayroll employees payrolls req).2 = payrolls
      ∨ (createPayroll employees payrolls req
            = (Response.created (manualRecord req), payrolls ++ [manualRecord req])
          ∧ Payroll.findOne payrolls (manualRecord req).employeeId (manualRecord req).month
              (manualRecord req).year = none) := by
  by_cases hv : isIntBetween req.month 1 12 = true ∧ isIntAtLeast req.year 2020 = true
      ∧ isFloatAtLeast req.basicSalary 0 = true
  · cases he : Employee.findById employees req.employeeId with
    | none => exact Or.inl (by rw [createPayroll_notFound _ _ _ hv he])
    | some employee =>
      cases hx : Payroll.findOne payrolls req.employeeId req.month.num req.year.num with
      | some existing => exact Or.inl (by rw [createPayroll_exists _ _ _ _ _ hv he hx])
      | none =>
        rw [createPayroll_compile _ _ _ _ hv he hx]
        split
        · rename_i saved hs
          obtain ⟨h1, _, h3⟩ := save_eq_some _ _ _ hs
          exact Or.inr ⟨by rw [h1], h3⟩
        · exact Or.inl rfl
  · exact Or.inl (by rw [createPayroll_invalid _ _ _ hv])

/-- One served request keeps the keys distinct. -/
theorem serve_periodUnique (payrolls : List PayrollRecord) (request : CreateRequest)
    (hu : periodUnique payrolls) : periodUnique (request.serve payrolls).2 := by
  cases request with
  | generate employees leaveStore req =>
    rcases generatePayroll_store employees leaveStore payrolls req with h | ⟨p, h, hfree, _⟩
    · simp only [CreateRequest.serve, h]
      exact hu
    · simp only [CreateRequest.serve, h]
      exact periodUnique_append payrolls p hu hfree
  | manual employees req =>
    rcases createPayroll_store employees payrolls req with h | ⟨h, hfree⟩
    · simp only [CreateRequest.serve, h]
      exact hu
    · simp only [CreateRequest.serve, h]
      exact periodUnique_append payrolls _ hu hfree

/-- C15: period uniqueness is an invariant of the payroll store: from a store with at
most one record per `(employeeId, month, year)`, any sequence of requests to
`POST /api/payroll/generate` and `POST /api/payroll`, served one at a time against
whatever employee and leave collections stand at each request, leaves a store with at
most one record per key. -/
theorem periodUnique_invariant (payrolls : List PayrollRecord)
    (requests : List CreateRequest) (hu : periodUnique payrolls) :
    periodUnique (serveAll payrolls requests) := by
  induction requests generalizing payrolls with
  | nil => exact hu
  | cons request rest ih =>
    simp only [serveAll, List.foldl_cons]
    exact ih _ (serve_periodUnique payrolls request hu)

/-! ## Duplicate periods and the manual entry point -/

theorem round_nonneg (x : ℚ) (h : 0 ≤ x) : 0 ≤ Math.round x := by
  unfold Math.round
  have : (0 : ℤ) ≤ ⌊x + 1 / 2⌋ := Int.floor_nonneg.mpr (by linarith)
  exact_mod_cast this

/-- A generated record passes the schema validators when the month is a calendar month,
the basic salary is non-negative and the unpaid days lie between 0 and 30. -/
theorem generatedRecord_schemaValid (employeeId : ℕ) (employee : Employee) (month year : ℤ)
    (leaves : List Leave) (hm : 1 ≤ month ∧ month ≤ 12) (hb : 0 ≤ employee.currentSalary)
    (hu : 0 ≤ calculateUnpaidLeaves leaves month year
      ∧ calculateUnpaidLeaves leaves month year ≤ 30) :
    Payroll.schemaValid (generatedRecord employeeId month year
      (calculateMonthlySalary employee month year leaves)) = true := by
  have hg := monthly_gross employee month year leaves
  have hn := monthly_net employee month year leaves
  have hd : (calculateMonthlySalary employee month year leaves).totalDeductions
      = employee.currentSalary * (19 / 80)
        + calculateUnpaidLeaves leaves month year * (employee.currentSalary / 30) := by
    simp only [calculateMonthlySalary, SalaryData.totalDeductions]
    ring
  have hprod : calculateUnpaidLeaves leaves month year * (employee.currentSalary / 30)
      ≤ employee.currentSalary := by
    have := mul_le_mul_of_nonneg_right hu.2 (div_nonneg hb (by norm_num : (0 : ℚ) ≤ 30))
    linarith
  simp only [Payroll.schemaValid, generatedRecord, Bool.and_eq_true, decide_eq_true_eq]
  refine ⟨⟨⟨⟨⟨hm.1, hm.2⟩, hb⟩, ?_⟩, ?_⟩, ?_⟩
  · rw [hg]
    exact round_nonneg _ (by linarith)
  · rw [hn, hd]
    exact round_nonneg _ (by linarith)
  · show (0 : ℚ) ≤ 30 - calculateUnpaidLeaves leaves month year
    linarith

theorem sampleGenerate_valid :
    isIntBetween sampleGenerate.month 1 12 = true
      ∧ isIntAtLeast sampleGenerate.year 2020 = true := by
  simp [isIntBetween, isIntAtLeast, sampleGenerate]

theorem sampleGenerate_month : sampleGenerate.month.num = 5 := by
  simp [sampleGenerate]

theorem sampleGenerate_year : sampleGenerate.year.num = 2024 := by
  simp [sampleGenerate]

/-- Generating May 2024 for the sample employee on an empty payroll collection stores the
record compiled from the leaves the query returns. -/
theorem generatePayroll_sample (leaveStore leaves : List Leave)
    (hfind : Leave.find leaveStore 1 { year := 2024, monthIndex := 4, day := 1 }
      { year := 2024, monthIndex := 5, day := 1 } = leaves)
    (hu : 0 ≤ calculateUnpaidLeaves leaves 5 2024 ∧ calculateUnpaidLeaves leaves 5 2024 ≤ 30) :
    generatePayroll [sampleEmployee 60000 60000] leaveStore [] sampleGenerate
      = (Response.created (generatedRecord 1 5 2024
            (calculateMonthlySalary (sampleEmployee 60000 60000) 5 2024 leaves)),
          [generatedRecord 1 5 2024
            (calculateMonthlySalary (sampleEmployee 60000 60000) 5 2024 leaves)]) := by
  rw [generatePayroll_compile [sampleEmployee 60000 60000] leaveStore [] sampleGenerate
    (sampleEmployee 60000 60000) sampleGenerate_valid rfl rfl]
  simp only [sampleGenerate_month, sampleGenerate_year]
  have he : sampleGenerate.employeeId = 1 := rfl
  rw [he]
  have h41 : (5 : ℤ) - 1 = 4 := by norm_num
  rw [h41, hfind]
  have hvalid := generatedRecord_schemaValid 1 (sampleEmployee 60000 60000) 5 2024 leaves
    (by norm_num) (by norm_num [sampleEmployee]) hu
  simp [Payroll.save, hvalid, Payroll.findOne]

/-- The key lookup finds a stored record that carries the requested key. -/
theorem findOne_ne_none_of_mem (payrolls : List PayrollRecord) (existing : PayrollRecord)
    (hmem : existing ∈ payrolls) :
    Payroll.findOne payrolls existing.employeeId existing.month existing.year ≠ none := by
  intro h
  exact (findOne_eq_none_iff _ _ _ _).mp h (List.mem_map.mpr ⟨existing, hmem, rfl⟩)

/-- C13 (the code at the failing input): a rejected 2-day unpaid leave starting in May
2024 is counted when May 2024 is generated: the record has 2 unpaid days, a leave
deduction of 4000 and 28 working days, against 0, 0 and 30 without that leave. -/
theorem generate_counts_rejected_leave :
    generatePayroll [sampleEmployee 60000 60000] [rejectedLeave] [] sampleGenerate
        = (Response.created (generatedRecord 1 5 2024
              (calculateMonthlySalary (sampleEmployee 60000 60000) 5 2024 [rejectedLeave])),
            [generatedRecord 1 5 2024
              (calculateMonthlySalary (sampleEmployee 60000 60000) 5 2024 [rejectedLeave])])
      ∧ generatePayroll [sampleEmployee 60000 60000] [] [] sampleGenerate
        = (Response.created sampleRecord, [sampleRecord])
      ∧ rejectedLeave.status = LeaveStatus.rejected
      ∧ (generatedRecord 1 5 2024 (calculateMonthlySalary (sampleEmployee 60000 60000)
          5 2024 [rejectedLeave])).unpaidLeaves = 2
      ∧ (generatedRecord 1 5 2024 (calculateMonthlySalary (sampleEmployee 60000 60000)
          5 2024 [rejectedLeave])).deductions.leave = 4000
      ∧ (generatedRecord 1 5 2024 (calculateMonthlySalary (sampleEmployee 60000 60000)
          5 2024 [rejectedLeave])).workingDays = 28
      ∧ sampleRecord.unpaidLeaves = 0
      ∧ sampleRecord.deductions.leave = 0
      ∧ sampleRecord.workingDays = 30 := by
  have hu : calculateUnpaidLeaves [rejectedLeave] 5 2024 = 2 := by
    simp [calculateUnpaidLeaves, rejectedLeave, sampleLeave, moment.month, moment.year]
  have hu0 : calculateUnpaidLeaves [] 5 2024 = 0 := rfl
  refine ⟨generatePayroll_sample [rejectedLeave] [rejectedLeave] ?_ ?_,
    generatePayroll_sample [] [] rfl ?_, rfl, ?_, ?_, ?_, ?_, ?_, ?_⟩
  · simp [Leave.find, Date.le, Date.lt, Date.monthCount, rejectedLeave, sampleLeave]
  · rw [hu]
    norm_num
  · rw [hu0]
    norm_num
  · simp only [generatedRecord, calculateMonthlySalary, hu]
  · simp only [generatedRecord, calculateMonthlySalary, hu, sampleEmployee]
    norm_num
  · simp only [generatedRecord, calculateMonthlySalary, hu]
    norm_num
  · simp only [sampleRecord, generatedRecord, calculateMonthlySalary, hu0]
  · simp only [sampleRecord, generatedRecord, calculateMonthlySalary, hu0]
    norm_num
  · simp only [sampleRecord, generatedRecord, calculateMonthlySalary, hu0]
    norm_num

/-- C14 (amended): when the payroll store already holds a record for
`(employeeId, month, year)`, a further `POST /api/payroll/generate` or
`POST /api/payroll` request for that key creates no record and leaves the store
unchanged; it is answered with 'Payroll already exists for this month' whenever it
passes the route's validators and its employee is still in the employee store. -/
theorem duplicate_period_rejected (employees : List Employee) (leaveStore : List Leave)
    (payrolls : List PayrollRecord) (existing : PayrollRecord) (greq : GenerateRequest)
    (mreq : ManualRequest) (hmem : existing ∈ payrolls)
    (hg : greq.employeeId = existing.employeeId ∧ greq.month = (existing.month : ℚ)
      ∧ greq.year = (existing.year : ℚ))
    (hm : mreq.employeeId = existing.employeeId ∧ mreq.month = (existing.month : ℚ)
      ∧ mreq.year = (existing.year : ℚ)) :
    (generatePayroll employees leaveStore payrolls greq).2 = payrolls
      ∧ (createPayroll employees payrolls mreq).2 = payrolls
      ∧ (∀ p, (generatePayroll employees leaveStore payrolls greq).1 ≠ Response.created p)
      ∧ (∀ p, (createPayroll employees payrolls mreq).1 ≠ Response.created p)
      ∧ (isIntBetween greq.month 1 12 = true ∧ isIntAtLeast greq.year 2020 = true →
          Employee.findById employees greq.employeeId ≠ none →
          generatePayroll employees leaveStore payrolls greq
            = (Response.payrollExists, payrolls))
      ∧ (isIntBetween mreq.month 1 12 = true ∧ isIntAtLeast mreq.year 2020 = true
            ∧ isFloatAtLeast mreq.basicSalary 0 = true →
          Employee.findById employees mreq.employeeId ≠ none →
          createPayroll employees payrolls mreq = (Response.payrollExists, payrolls)) := by
  have hfound := findOne_ne_none_of_mem payrolls existing hmem
  have hgx : Payroll.findOne payrolls greq.employeeId greq.month.num greq.year.num
      ≠ none := by
    rw [hg.1, hg.2.1, hg.2.2, Rat.intCast_num, Rat.intCast_num]
    exact hfound
  have hmx : Payroll.findOne payrolls mreq.employeeId mreq.month.num mreq.year.num
      ≠ none := by
    rw [hm.1, hm.2.1, hm.2.2, Rat.intCast_num, Rat.intCast_num]
    exact hfound
  have hG : ∀ (_ : isIntBetween greq.month 1 12 = true ∧ isIntAtLeast greq.year 2020 = true)
      (_ : Employee.findById employees greq.employeeId ≠ none),
      generatePayroll employees leaveStore payrolls greq
        = (Response.payrollExists, payrolls) := by
    intro hv he
    obtain ⟨employee, he⟩ := Option.ne_none_iff_exists'.mp he
    obtain ⟨r, hr⟩ := Option.ne_none_iff_exists'.mp hgx
    exact generatePayroll_exists _ _ _ _ employee r hv he hr
  have hM : ∀ (_ : isIntBetween mreq.month 1 12 = true ∧ isIntAtLeast mreq.year 2020 = true
        ∧ isFloatAtLeast mreq.basicSalary 0 = true)
      (_ : Employee.findById employees mreq.employeeId ≠ none),
      createPayroll employees payrolls mreq = (Response.payrollExists, payrolls) := by
    intro hv he
    obtain ⟨employee, he⟩ := Option.ne_none_iff_exists'.mp he
    obtain ⟨r, hr⟩ := Option.ne_none_iff_exists'.mp hmx
    exact createPayroll_exists _ _ _ employee r hv he hr
  have hGall : (generatePayroll employees leaveStore payrolls greq).2 = payrolls
      ∧ ∀ p, (generatePayroll employees leaveStore payrolls greq).1 ≠ Response.created p := by
    by_cases hv : isIntBetween greq.month 1 12 = true ∧ isIntAtLeast greq.year 2020 = true
    · cases he : Employee.findById employees greq.employeeId with
      | none =>
        rw [generatePayroll_notFound _ _ _ _ hv he]
        exact ⟨rfl, fun p h => by cases h⟩
      | some employee =>
        rw [hG hv (by rw [he]; simp)]
        exact ⟨rfl, fun p h => by cases h⟩
    · rw [generatePayroll_invalid _ _ _ _ hv]
      exact ⟨rfl, fun p h => by cases h⟩
  have hMall : (createPayroll employees payrolls mreq).2 = payrolls
      ∧ ∀ p, (createPayroll employees payrolls mreq).1 ≠ Response.created p := by
    by_cases hv : isIntBetween mreq.month 1 12 = true ∧ isIntAtLeast mreq.year 2020 = true
        ∧ isFloatAtLeast mreq.basicSalary 0 = true
    · cases he : Employee.findById employees mreq.employeeId with
      | none =>
        rw [createPayroll_notFound _ _ _ hv he]
        exact ⟨rfl, fun p h => by cases h⟩
      | some employee =>
        rw [hM hv (by rw [he]; simp)]
        exact ⟨rfl, fun p h => by cases h⟩
    · rw [createPayroll_invalid _ _ _ hv]
      exact ⟨rfl, fun p h => by cases h⟩
  exact ⟨hGall.1, hMall.1, hGall.2, hMall.2, hG, hM⟩

/-- C14 (witness): generating (employee 1, 5, 2024) twice in a row: the first request
stores the record, the second is answered 'Payroll already exists for this month' and
leaves the store as the first left it. -/
theorem duplicate_period_rejected_witness :
    generatePayroll [sampleEmployee 60000 60000] [] [] sampleGenerate
        = (Response.created sampleRecord, [sampleRecord])
      ∧ generatePayroll [sampleEmployee 60000 60000] [] [sampleRecord] sampleGenerate
        = (Response.payrollExists, [sampleRecord]) := by
  refine ⟨generatePayroll_sample [] [] rfl (by
    rw [show calculateUnpaidLeaves [] 5 2024 = 0 from rfl]
    norm_num), ?_⟩
  exact (duplicate_period_rejected [sampleEmployee 60000 60000] [] [sampleRecord]
    sampleRecord sampleGenerate (sampleManual none none) (List.mem_singleton.mpr rfl)
    ⟨rfl, by norm_num [sampleGenerate, sampleRecord, generatedRecord],
      by norm_num [sampleGenerate, sampleRecord, generatedRecord]⟩
    ⟨rfl, by norm_num [sampleManual, sampleRecord, generatedRecord],
      by norm_num [sampleManual, sampleRecord, generatedRecord]⟩).2.2.2.2.1
    sampleGenerate_valid (by simp [Employee.findById, sampleEmployee, sampleGenerate])

/-- C14 (as stated) fails: the store holds the May 2024 record of employee 1, but the
employee has since been removed from the employee store; the further generate request
for that key is answered 'Employee not found', not 'Payroll already exists for this
month'. -/
theorem duplicate_period_counterexample :
    sampleRecord ∈ [sampleRecord]
      ∧ sampleRecord.key = (sampleGenerate.employeeId, 5, 2024)
      ∧ (generatePayroll [] [] [sampleRecord] sampleGenerate).1 = Response.employeeNotFound
      ∧ (generatePayroll [] [] [sampleRecord] sampleGenerate).1 ≠ Response.payrollExists := by
  have h := generatePayroll_notFound [] [] [sampleRecord] sampleGenerate
    sampleGenerate_valid rfl
  refine ⟨List.mem_singleton.mpr rfl, rfl, by rw [h], ?_⟩
  rw [h]
  intro hc
  cases hc

/-- A record `POST /api/payroll` answers with is the one built from the form, and it
was appended to the store. -/
theorem createPayroll_created (employees : List Employee) (payrolls : List PayrollRecord)
    (req : ManualRequest) (p : PayrollRecord)
    (h : (createPayroll employees payrolls req).1 = Response.created p) :
    p = manualRecord req
      ∧ createPayroll employees payrolls req = (Response.created p, payrolls ++ [p]) := by
  by_cases hv : isIntBetween req.month 1 12 = true ∧ isIntAtLeast req.year 2020 = true
      ∧ isFloatAtLeast req.basicSalary 0 = true
  · cases he : Employee.findById employees req.employeeId with
    | none =>
      rw [createPayroll_notFound _ _ _ hv he] at h
      cases h
    | some employee =>
      cases hx : Payroll.findOne payrolls req.employeeId req.month.num req.year.num with
      | some existing =>
        rw [createPayroll_exists _ _ _ _ _ hv he hx] at h
        cases h
      | none =>
        rw [createPayroll_compile _ _ _ _ hv he hx] at h ⊢
        cases hs : Payroll.save payrolls (manualRecord req) with
        | none =>
          rw [hs] at h
          cases h
        | some saved =>
          rw [hs] at h
          have hp : manualRecord req = p := by
            simpa using h
          obtain ⟨h1, _, _⟩ := save_eq_some _ _ _ hs
          subst hp
          exact ⟨rfl, by rw [h1]⟩
  · rw [createPayroll_invalid _ _ _ hv] at h
    cases h

/-- C16 (amended): a record created through `POST /api/payroll` stores the request's
own `grossSalary` and `netSalary` (0 when absent) beside the supplied basic salary,
allowances, bonuses and deductions (zeros when absent); the handler computes neither
figure, so gross = basic + allowances + bonuses and net = gross − deductions hold for
the stored record exactly when the request's figures satisfy them. -/
theorem manual_record_takes_request_totals (employees : List Employee)
    (payrolls : List PayrollRecord) (req : ManualRequest) (p : PayrollRecord)
    (h : (createPayroll employees payrolls req).1 = Response.created p) :
    p.grossSalary = orDefault req.grossSalary 0
      ∧ p.netSalary = orDefault req.netSalary 0
      ∧ p.basicSalary = req.basicSalary
      ∧ p.allowances = req.allowances.getD { hra := 0, da := 0, ta := 0, other := 0 }
      ∧ p.bonuses = req.bonuses.getD { performance := 0, attendance := 0, other := 0 }
      ∧ p.deductions = req.deductions.getD
          { tax := 0, pf := 0, esi := 0, loan := 0, leave := 0, other := 0 }
      ∧ (p.grossSalary = p.basicSalary + p.totalAllowances + p.totalBonuses
          ↔ orDefault req.grossSalary 0
            = req.basicSalary + (manualRecord req).totalAllowances
              + (manualRecord req).totalBonuses)
      ∧ (p.netSalary = p.grossSalary - p.totalDeductions
          ↔ orDefault req.netSalary 0
            = orDefault req.grossSalary 0 - (manualRecord req).totalDeductions) := by
  obtain ⟨hp, _⟩ := createPayroll_created employees payrolls req p h
  subst hp
  have hb : (manualRecord req).basicSalary = req.basicSalary := by
    simp only [manualRecord, orDefault]
    split <;> simp_all
  refine ⟨rfl, rfl, hb, rfl, rfl, rfl, ?_, ?_⟩
  · rw [hb]
    rfl
  · rfl

/-- The sample form payload passes the three guards on an empty payroll collection and
is stored as built. -/
theorem createPayroll_sample (grossSalary netSalary : Option ℚ)
    (hg : 0 ≤ orDefault grossSalary 0) (hn : 0 ≤ orDefault netSalary 0) :
    createPayroll [sampleEmployee 60000 60000] [] (sampleManual grossSalary netSalary)
      = (Response.created (manualRecord (sampleManual grossSalary netSalary)),
          [manualRecord (sampleManual grossSalary netSalary)]) := by
  rw [createPayroll_compile [sampleEmployee 60000 60000] []
    (sampleManual grossSalary netSalary) (sampleEmployee 60000 60000)
    (by simp [isIntBetween, isIntAtLeast, isFloatAtLeast, sampleManual]) rfl rfl]
  have hvalid : Payroll.schemaValid (manualRecord (sampleManual grossSalary netSalary))
      = true := by
    simp only [Payroll.schemaValid, manualRecord, sampleManual, Bool.and_eq_true,
      decide_eq_true_eq]
    refine ⟨⟨⟨⟨⟨?_, ?_⟩, ?_⟩, hg⟩, hn⟩, ?_⟩ <;> norm_num [orDefault]
  simp [Payroll.save, hvalid, Payroll.findOne]

/-- C16 (witness): a form with basic salary 1000, no components, gross 1000 and net 1000
is stored with gross 1000 and net 1000. -/
theorem manual_record_takes_request_totals_witness :
    (manualRecord (sampleManual (some 1000) (some 1000))).grossSalary = 1000
      ∧ (manualRecord (sampleManual (some 1000) (some 1000))).netSalary = 1000 := by
  have hc := createPayroll_sample (some 1000) (some 1000) (by norm_num [orDefault])
    (by norm_num [orDefault])
  have h := manual_record_takes_request_totals [sampleEmployee 60000 60000] []
    (sampleManual (some 1000) (some 1000))
    (manualRecord (sampleManual (some 1000) (some 1000))) (by rw [hc])
  refine ⟨?_, ?_⟩
  · rw [h.1]
    norm_num [orDefault, sampleManual]
  · rw [h.2.1]
    norm_num [orDefault, sampleManual]

/-- C16 (as stated) fails: a form with basic salary 1000, no allowances or bonuses and
`grossSalary` 5, `netSalary` 7 is stored as sent: gross 5 is not 1000 + 0 + 0 and net 7
is not 5 − 0. -/
theorem manual_record_counterexample :
    ∃ p, createPayroll [sampleEmployee 60000 60000] [] (sampleManual (some 5) (some 7))
        = (Response.created p, [p])
      ∧ ¬ (p.grossSalary = p.basicSalary + p.totalAllowances + p.totalBonuses)
      ∧ ¬ (p.netSalary = p.grossSalary - p.totalDeductions) := by
  refine ⟨manualRecord (sampleManual (some 5) (some 7)),
    createPayroll_sample (some 5) (some 7) (by norm_num [orDefault])
      (by norm_num [orDefault]), ?_, ?_⟩
  · norm_num [manualRecord, sampleManual, orDefault, PayrollRecord.totalAllowances,
      PayrollRecord.totalBonuses]
  · norm_num [manualRecord, sampleManual, orDefault, PayrollRecord.totalDeductions]

/-! ## Increment batch -/

/-- With an active policy whose interval is not zero every projection terminates. -/
theorem projected_ne_none (store : List IncrementSettings) (years : Date → ℤ)
    (hint : ∀ s, IncrementSettings.findOne store = some s → s.interval ≠ 0)
    (employee : Employee) : projected store years employee ≠ none := by
  unfold projected calculateCurrentSalary
  cases hf : IncrementSettings.findOne store with
  | none => simp
  | some s =>
    have h0 := hint s hf
    simp only
    split
    · simp
    · simp [h0]

/-- The projection reads the base salary and the join date only. -/
theorem projected_congr (store : List IncrementSettings) (years : Date → ℤ)
    (a b : Employee) (hb : a.baseSalary = b.baseSalary)
    (hd : a.dateOfJoining = b.dateOfJoining) :
    projected store years a = projected store years b := by
  unfold projected calculateCurrentSalary
  rw [hb, hd]

/-- The loop of `applyIncrements`, run to its end: every stored document has received
the visits, the count has grown by the number of visited documents whose projection
differed, and exactly those were saved. -/
theorem applyIncrementsLoop_spec (store : List IncrementSettings) (years : Date → ℤ)
    (visited : List Employee) (hterm : ∀ e ∈ visited, projected store years e ≠ none)
    (employees : List Employee) (n : ℕ) (saved : List Employee) :
    applyIncrementsLoop store years visited employees n saved
      = some (employees.map (visit store years visited),
          n + (visited.filter (fun e =>
            decide (projected store years e ≠ some e.currentSalary))).length,
          saved ++ (visited.filter (fun e =>
            decide (projected store years e ≠ some e.currentSalary))).map
              (withProjected store years)) := by
  induction visited generalizing employees n saved with
  | nil =>
    have hvisit : ∀ x, visit store years [] x = x := fun _ => rfl
    simp only [applyIncrementsLoop, List.filter_nil, List.length_nil, List.map_nil,
      List.append_nil, Nat.add_zero]
    refine congrArg some (Prod.ext ?_ rfl)
    exact (List.map_congr_left (fun x _ => hvisit x)).trans (List.map_id _) |>.symm
  | cons e rest ih =>
    have hrest : ∀ x ∈ rest, projected store years x ≠ none :=
      fun x hx => hterm x (List.mem_cons_of_mem e hx)
    obtain ⟨v, hv⟩ := Option.ne_none_iff_exists'.mp (hterm e (List.mem_cons_self e rest))
    have hv' : calculateCurrentSalary store e (years e.dateOfJoining) = some v := hv
    have hw : withProjected store years e = { e with currentSalary := v } := by
      simp [withProjected, hv]
    by_cases hne : v = e.currentSalary
    · have hd : ¬ (projected store years e ≠ some e.currentSalary) := by
        rw [hv, hne]
        simp
      have hvisit : ∀ x, visit store years (e :: rest) x = visit store years rest x := by
        intro x
        simp only [visit, List.foldl_cons]
        rw [if_neg (fun h => hd h.1)]
      rw [List.filter_cons_of_neg (by simpa using hd)]
      simp only [applyIncrementsLoop, hv', hne, ne_eq, not_true_eq_false, if_false]
      rw [ih hrest]
      refine congrArg some (Prod.ext ?_ rfl)
      exact (List.map_congr_left (fun x _ => hvisit x)).symm
    · have hd : projected store years e ≠ some e.currentSalary := by
        rw [hv]
        intro h
        exact hne (Option.some.inj h)
      have hvisit : ∀ x, visit store years (e :: rest) x
          = visit store years rest
              (if x.id = e.id then withProjected store years e else x) := by
        intro x
        simp only [visit, List.foldl_cons]
        by_cases hx : x.id = e.id
        · rw [if_pos ⟨hd, hx⟩, if_pos hx]
        · rw [if_neg (fun h => hx h.2), if_neg hx]
      rw [List.filter_cons_of_pos (by simpa using hd)]
      simp only [applyIncrementsLoop, hv', ne_eq, hne, not_false_eq_true, if_true]
      rw [ih hrest]
      refine congrArg some (Prod.ext ?_ (Prod.ext ?_ ?_))
      · simp only [Employee.save, List.map_map]
        apply List.map_congr_left
        intro x _
        rw [hvisit x, hw]
        rfl
      · simp only [List.length_cons, ne_eq]
        omega
      · simp only [List.map_cons, hw, List.append_assoc, List.singleton_append]

/-- The visits leave a stored document alone unless the document itself is visited and
its projection differs, provided no other visited document shares its identity. -/
theorem visit_eq (store : List IncrementSettings) (years : Date → ℤ)
    (visited : List Employee) (x acc : Employee) (hacc : acc.id = x.id)
    (huniq : ∀ e ∈ visited, e.id = x.id → e = x) :
    visit store years visited acc
      = if x ∈ visited ∧ projected store years x ≠ some x.currentSalary then
          withProjected store years x
        else acc := by
  induction visited generalizing acc with
  | nil => simp [visit]
  | cons e rest ih =>
    have hrest : ∀ y ∈ rest, y.id = x.id → y = x :=
      fun y hy => huniq y (List.mem_cons_of_mem e hy)
    have hstep : visit store years (e :: rest) acc
        = visit store years rest
            (if projected store years e ≠ some e.currentSalary ∧ acc.id = e.id then
              withProjected store years e
            else acc) := by
      simp only [visit, List.foldl_cons]
    rw [hstep]
    by_cases hex : e.id = x.id
    · have hx : e = x := huniq e (List.mem_cons_self e rest) hex
      subst hx
      by_cases hd : projected store years e ≠ some e.currentSalary
      · rw [if_pos ⟨hd, hacc⟩, ih (withProjected store years e) rfl hrest]
        simp [hd]
      · rw [if_neg (fun h => hd h.1), ih acc hacc hrest]
        simp [hd]
    · have hne : ¬ (acc.id = e.id) := fun h => hex (h.symm.trans hacc)
      have hxe : x ≠ e := fun h => hex (by rw [h])
      rw [if_neg (fun h => hne h.2), ih acc hacc hrest]
      simp [hxe]

/-- With distinct identities, the visits to the active employees turn every stored
document into the one the specification expects. -/
theorem visit_active (store : List IncrementSettings) (years : Date → ℤ)
    (employees : List Employee) (hid : (employees.map (fun e => e.id)).Nodup)
    (x : Employee) (hx : x ∈ employees) :
    visit store years (Employee.find employees EmployeeStatus.active) x
      = incremented store years x := by
  have huniq : ∀ e ∈ Employee.find employees EmployeeStatus.active, e.id = x.id → e = x := by
    intro e he hex
    exact List.inj_on_of_nodup_map hid (List.mem_of_mem_filter he) hx hex
  rw [visit_eq store years _ x x rfl huniq]
  have hmem : x ∈ Employee.find employees EmployeeStatus.active
      ↔ x.status = EmployeeStatus.active := by
    simp [Employee.find, List.mem_filter, hx]
  simp only [incremented, needsUpdate, hmem, Bool.and_eq_true, decide_eq_true_eq]

/-- The documents the loop saves are the employees that need an update. -/
theorem filter_active_differs (store : List IncrementSettings) (years : Date → ℤ)
    (employees : List Employee) :
    (Employee.find employees EmployeeStatus.active).filter (fun e =>
        decide (projected store years e ≠ some e.currentSalary))
      = employees.filter (needsUpdate store years) := by
  rw [Employee.find, List.filter_filter]
  apply List.filter_congr
  intro e _
  simp only [needsUpdate, Bool.and_comm]

/-- A run of `applyIncrements` under an active policy, in closed form. -/
theorem applyIncrements_spec (store : List IncrementSettings) (years : Date → ℤ)
    (employees : List Employee) (s : IncrementSettings)
    (hactive : IncrementSettings.findOne store = some s)
    (hint : ∀ s, IncrementSettings.findOne store = some s → s.interval ≠ 0)
    (hid : (employees.map (fun e => e.id)).Nodup) :
    applyIncrements store years employees
      = some
        { message := "Increments applied to "
            ++ toString (employees.filter (needsUpdate store years)).length ++ " employees"
          updatedCount := some (employees.filter (needsUpdate store years)).length
          employees := employees.map (incremented store years)
          saved := (employees.filter (needsUpdate store years)).map
            (withProjected store years) } := by
  have hloop := applyIncrementsLoop_spec store years
    (Employee.find employees EmployeeStatus.active)
    (fun e _ => projected_ne_none store years hint e) employees 0 []
  rw [filter_active_differs] at hloop
  have hmap : employees.map (visit store years (Employee.find employees EmployeeStatus.active))
      = employees.map (incremented store years) :=
    List.map_congr_left (fun x hx => visit_active store years employees hid x hx)
  rw [hmap] at hloop
  simp only [applyIncrements, hactive, hloop, Nat.zero_add, List.nil_append]

/-- A document the specification expects after the batch needs no further update. -/
theorem needsUpdate_incremented (store : List IncrementSettings) (years : Date → ℤ)
    (hint : ∀ s, IncrementSettings.findOne store = some s → s.interval ≠ 0)
    (e : Employee) : needsUpdate store years (incremented store years e) = false := by
  obtain ⟨v, hv⟩ := Option.ne_none_iff_exists'.mp (projected_ne_none store years hint e)
  by_cases hn : needsUpdate store years e = true
  · have hp : projected store years (withProjected store years e) = some v := by
      rw [projected_congr store years (withProjected store years e) e rfl rfl, hv]
    have hinc : incremented store years e = withProjected store years e := by
      unfold incremented
      rw [if_pos hn]
    rw [hinc]
    simp only [needsUpdate, hp]
    simp [withProjected, hv]
  · have hinc : incremented store years e = e := by
      unfold incremented
      rw [if_neg hn]
    rw [hinc]
    exact Bool.eq_false_iff.mpr hn

/-- The batch changes at most the current salary of a document, and only of an active
one. -/
theorem incremented_frame (store : List IncrementSettings) (years : Date → ℤ)
    (e : Employee) :
    (incremented store years e).id = e.id
      ∧ (incremented store years e).baseSalary = e.baseSalary
      ∧ (incremented store years e).dateOfJoining = e.dateOfJoining
      ∧ (incremented store years e).status = e.status
      ∧ (e.status ≠ EmployeeStatus.active → incremented store years e = e) := by
  unfold incremented
  by_cases hn : needsUpdate store years e = true
  · rw [if_pos hn]
    refine ⟨rfl, rfl, rfl, rfl, fun hs => ?_⟩
    simp only [needsUpdate, Bool.and_eq_true, decide_eq_true_eq] at hn
    exact absurd hn.1 hs
  · rw [if_neg hn]
    exact ⟨rfl, rfl, rfl, rfl, fun _ => rfl⟩

/-- A document that needs no update is left as it is. -/
theorem incremented_of_not (store : List IncrementSettings) (years : Date → ℤ)
    (e : Employee) (h : needsUpdate store years e = false) :
    incremented store years e = e := by
  unfold incremented
  rw [h]
  simp

/-- Without an active policy the batch returns its no-op result at once. -/
theorem applyIncrements_noop (store : List IncrementSettings) (years : Date → ℤ)
    (employees : List Employee) (h : IncrementSettings.findOne store = none) :
    applyIncrements store years employees
      = some { message := "No active increment settings found", updatedCount := none,
               employees := employees, saved := [] } := by
  simp only [applyIncrements, h]

/-- The batch keeps the identities of the collection. -/
theorem map_incremented_ids (store : List IncrementSettings) (years : Date → ℤ)
    (employees : List Employee) :
    (employees.map (incremented store years)).map (fun e => e.id)
      = employees.map (fun e => e.id) := by
  rw [List.map_map]
  exact List.map_congr_left (fun e _ => (incremented_frame store years e).1)

/-- Base 50000 under 10% every year with 3 years of service projects 66550. -/
theorem sample_projection (currentSalary : ℚ) :
    calculateCurrentSalary [samplePolicy 1 IncrementType.percentage 10]
      (sampleEmployee 50000 currentSalary) 3 = some 66550 := by
  rw [calculateCurrentSalary_loop [samplePolicy 1 IncrementType.percentage 10]
    (samplePolicy 1 IncrementType.percentage 10) (sampleEmployee 50000 currentSalary) 3 rfl
    (by norm_num [samplePolicy]) (by norm_num [samplePolicy]),
    incrementLoop_percentage _ rfl]
  have hn : (Math.floor (((3 : ℤ) : ℚ)
      / (samplePolicy 1 IncrementType.percentage 10).interval)).toNat = 3 := by
    simp [Math.floor, samplePolicy]
  rw [hn]
  congr 1
  exact round_eq_of _ 66550 (by norm_num [sampleEmployee, samplePolicy])
    (by norm_num [sampleEmployee, samplePolicy])

/-- C17: with an active policy (interval not zero) and an employee collection of
distinct identities, `applyIncrements` returns; afterwards every document is the stored
one except that each active employee whose projected salary differed now carries
`calculateCurrentSalary(employee)`, so every active employee's `currentSalary` is its
projected salary; the saved documents are exactly the active employees whose projected
salary differed, and `updatedCount` is their number. -/
theorem applyIncrements_updates_active (store : List IncrementSettings) (years : Date → ℤ)
    (employees : List Employee) (s : IncrementSettings)
    (hactive : IncrementSettings.findOne store = some s) (hint : s.interval ≠ 0)
    (hid : (employees.map (fun e => e.id)).Nodup) :
    ∃ out, applyIncrements store years employees = some out
      ∧ out.employees = employees.map (incremented store years)
      ∧ (∀ e ∈ out.employees, e.status = EmployeeStatus.active →
          calculateCurrentSalary store e (years e.dateOfJoining) = some e.currentSalary)
      ∧ out.saved = (employees.filter (fun e =>
            decide (e.status = EmployeeStatus.active)
              && decide (calculateCurrentSalary store e (years e.dateOfJoining)
                  ≠ some e.currentSalary))).map (withProjected store years)
      ∧ out.updatedCount = some (employees.filter (fun e =>
            decide (e.status = EmployeeStatus.active)
              && decide (calculateCurrentSalary store e (years e.dateOfJoining)
                  ≠ some e.currentSalary))).length := by
  have hint' : ∀ t, IncrementSettings.findOne store = some t → t.interval ≠ 0 := by
    intro t ht
    rw [hactive] at ht
    exact (Option.some.inj ht) ▸ hint
  refine ⟨_, applyIncrements_spec store years employees s hactive hint' hid, rfl, ?_,
    rfl, rfl⟩
  intro e he hs
  obtain ⟨x, _, rfl⟩ := List.mem_map.mp he
  have hn := needsUpdate_incremented store years hint' x
  simp only [needsUpdate, hs, decide_True, Bool.true_and, decide_eq_false_iff_not,
    not_not] at hn
  exact hn

/-- C17 (witness): 10% every year, both employees with 3 years of service: the active
employee 1 (base 50000, current 50000) is raised to 66550 and saved, the inactive
employee 2 is not visited, and `updatedCount` is 1. -/
theorem applyIncrements_updates_active_witness :
    ∃ out, applyIncrements [samplePolicy 1 IncrementType.percentage 10] threeYears
          [sampleEmployee 50000 50000, inactiveEmployee] = some out
      ∧ out.employees = [sampleEmployee 50000 66550, inactiveEmployee]
      ∧ out.saved = [sampleEmployee 50000 66550]
      ∧ out.updatedCount = some 1 := by
  obtain ⟨out, h, he, _, hs, hc⟩ := applyIncrements_updates_active
    [samplePolicy 1 IncrementType.percentage 10] threeYears
    [sampleEmployee 50000 50000, inactiveEmployee]
    (samplePolicy 1 IncrementType.percentage 10) rfl (by norm_num [samplePolicy])
    (by simp [sampleEmployee, inactiveEmployee])
  have hp : projected [samplePolicy 1 IncrementType.percentage 10] threeYears
      (sampleEmployee 50000 50000) = some 66550 := sample_projection 50000
  have hc1 : calculateCurrentSalary [samplePolicy 1 IncrementType.percentage 10]
      (sampleEmployee 50000 50000) (threeYears (sampleEmployee 50000 50000).dateOfJoining)
      = some 66550 := sample_projection 50000
  have hn1 : needsUpdate [samplePolicy 1 IncrementType.percentage 10] threeYears
      (sampleEmployee 50000 50000) = true := by
    simp only [needsUpdate, hp]
    simp [sampleEmployee]
  have hn2 : needsUpdate [samplePolicy 1 IncrementType.percentage 10] threeYears
      inactiveEmployee = false := by
    simp [needsUpdate, inactiveEmployee, sampleEmployee]
  have hw : withProjected [samplePolicy 1 IncrementType.percentage 10] threeYears
      (sampleEmployee 50000 50000) = sampleEmployee 50000 66550 := by
    simp only [withProjected, hp, Option.getD_some]
    rfl
  have hfilter : [sampleEmployee 50000 50000, inactiveEmployee].filter (fun e =>
      decide (e.status = EmployeeStatus.active)
        && decide (calculateCurrentSalary [samplePolicy 1 IncrementType.percentage 10] e
            (threeYears e.dateOfJoining) ≠ some e.currentSalary))
      = [sampleEmployee 50000 50000] := by
    rw [List.filter_cons_of_pos (by rw [hc1]; simp [sampleEmployee]),
      List.filter_cons_of_neg (by simp [inactiveEmployee, sampleEmployee])]
    rfl
  refine ⟨out, h, ?_, ?_, ?_⟩
  · rw [he]
    simp only [List.map_cons, List.map_nil, incremented, hn1, hn2, if_true, hw]
    simp
  · rw [hs, hfilter]
    simp [hw]
  · rw [hc, hfilter]
    rfl

/-- C18: with an active policy (interval not zero) and distinct identities, running
`applyIncrements` twice in succession with the same policy and the same clock returns
`updatedCount = 0` on the second run, which saves nothing and leaves the employee
collection exactly as the first run left it. -/
theorem applyIncrements_idempotent (store : List IncrementSettings) (years : Date → ℤ)
    (employees : List Employee) (s : IncrementSettings)
    (hactive : IncrementSettings.findOne store = some s) (hint : s.interval ≠ 0)
    (hid : (employees.map (fun e => e.id)).Nodup) :
    ∃ first second, applyIncrements store years employees = some first
      ∧ applyIncrements store years first.employees = some second
      ∧ second.updatedCount = some 0
      ∧ second.employees = first.employees
      ∧ second.saved = [] := by
  have hint' : ∀ t, IncrementSettings.findOne store = some t → t.interval ≠ 0 := by
    intro t ht
    rw [hactive] at ht
    exact (Option.some.inj ht) ▸ hint
  have hid' : ((employees.map (incremented store years)).map (fun e => e.id)).Nodup := by
    rw [map_incremented_ids]
    exact hid
  have hnone : (employees.map (incremented store years)).filter (needsUpdate store years)
      = [] := by
    rw [List.filter_eq_nil_iff]
    intro e he
    obtain ⟨x, _, rfl⟩ := List.mem_map.mp he
    rw [needsUpdate_incremented store years hint' x]
    simp
  have hfix : (employees.map (incremented store years)).map (incremented store years)
      = employees.map (incremented store years) := by
    rw [List.map_map]
    apply List.map_congr_left
    intro x _
    exact incremented_of_not store years _ (needsUpdate_incremented store years hint' x)
  refine ⟨_, _, applyIncrements_spec store years employees s hactive hint' hid,
    applyIncrements_spec store years _ s hactive hint' hid', ?_, ?_, ?_⟩
  · simp only [hnone, List.length_nil]
  · exact hfix
  · simp only [hnone, List.map_nil]

/-- C18 (witness): the sample batch run a second time on what the first run left
updates nobody and changes nothing. -/
theorem applyIncrements_idempotent_witness :
    ∃ first second,
      applyIncrements [samplePolicy 1 IncrementType.percentage 10] threeYears
          [sampleEmployee 50000 50000, inactiveEmployee] = some first
      ∧ applyIncrements [samplePolicy 1 IncrementType.percentage 10] threeYears
          first.employees = some second
      ∧ second.updatedCount = some 0
      ∧ second.employees = first.employees
      ∧ second.saved = [] :=
  applyIncrements_idempotent [samplePolicy 1 IncrementType.percentage 10] threeYears
    [sampleEmployee 50000 50000, inactiveEmployee]
    (samplePolicy 1 IncrementType.percentage 10) rfl (by norm_num [samplePolicy])
    (by simp [sampleEmployee, inactiveEmployee])

/-- C19: without an active increment policy `applyIncrements` does not fail: it returns
the no-op result with message 'No active increment settings found' and no
`updatedCount`, saves nothing and leaves every employee record unchanged. -/
theorem applyIncrements_no_policy (store : List IncrementSettings) (years : Date → ℤ)
    (employees : List Employee) (h : IncrementSettings.findOne store = none) :
    applyIncrements store years employees
      = some { message := "No active increment settings found", updatedCount := none,
               employees := employees, saved := [] } := by
  simp only [applyIncrements, h]

/-- C19 (witness): the only stored policy is inactive; the batch is a no-op. -/
theorem applyIncrements_no_policy_witness :
    applyIncrements
        [{ samplePolicy 1 IncrementType.percentage 10 with isActive := false }] threeYears
        [sampleEmployee 50000 50000, inactiveEmployee]
      = some { message := "No active increment settings found", updatedCount := none,
               employees := [sampleEmployee 50000 50000, inactiveEmployee], saved := [] } :=
  applyIncrements_no_policy _ threeYears _ rfl

/-- C20: with distinct identities and no zero-interval active policy, `applyIncrements`
returns a collection that matches the stored one document by document: identity,
`baseSalary`, `dateOfJoining` and `status` are unchanged for every employee, and an
employee whose status is not active (inactive or terminated) is unchanged altogether. -/
theorem applyIncrements_frame (store : List IncrementSettings) (years : Date → ℤ)
    (employees : List Employee)
    (hint : ∀ s, IncrementSettings.findOne store = some s → s.interval ≠ 0)
    (hid : (employees.map (fun e => e.id)).Nodup) :
    ∃ out, applyIncrements store years employees = some out
      ∧ List.Forall₂ (fun before after =>
          after.id = before.id ∧ after.baseSalary = before.baseSalary
            ∧ after.dateOfJoining = before.dateOfJoining ∧ after.status = before.status
            ∧ (before.status ≠ EmployeeStatus.active → after = before))
        employees out.employees := by
  cases hf : IncrementSettings.findOne store with
  | none =>
    refine ⟨_, applyIncrements_noop store years employees hf, ?_⟩
    exact List.forall₂_same.mpr (fun e _ => ⟨rfl, rfl, rfl, rfl, fun _ => rfl⟩)
  | some s =>
    refine ⟨_, applyIncrements_spec store years employees s hf hint hid, ?_⟩
    rw [List.forall₂_map_right_iff]
    exact List.forall₂_same.mpr (fun e _ => incremented_frame store years e)

/-- C20 (witness): in the sample batch the inactive employee 2 is returned as stored and
employee 1 keeps identity, base salary, join date and status. -/
theorem applyIncrements_frame_witness :
    ∃ out, applyIncrements [samplePolicy 1 IncrementType.percentage 10] threeYears
          [sampleEmployee 50000 50000, inactiveEmployee] = some out
      ∧ List.Forall₂ (fun before after =>
          after.id = before.id ∧ after.baseSalary = before.baseSalary
            ∧ after.dateOfJoining = before.dateOfJoining ∧ after.status = before.status
            ∧ (before.status ≠ EmployeeStatus.active → after = before))
        [sampleEmployee 50000 50000, inactiveEmployee] out.employees :=
  applyIncrements_frame [samplePolicy 1 IncrementType.percentage 10] threeYears
    [sampleEmployee 50000 50000, inactiveEmployee]
    (fun s hs => by
      have : s = samplePolicy 1 IncrementType.percentage 10 := (Option.some.inj hs).symm
      subst this
      norm_num [samplePolicy])
    (by simp [sampleEmployee, inactiveEmployee])

/-- C15 (witness): from the empty store, generating May 2024 for employee 1 twice and
then posting a form for the same key leaves exactly one record, the first one. -/
theorem periodUnique_invariant_witness :
    periodUnique (serveAll []
        [CreateRequest.generate [sampleEmployee 60000 60000] [] sampleGenerate,
          CreateRequest.generate [sampleEmployee 60000 60000] [] sampleGenerate,
          CreateRequest.manual [sampleEmployee 60000 60000] (sampleManual none none)])
      ∧ serveAll []
        [CreateRequest.generate [sampleEmployee 60000 60000] [] sampleGenerate,
          CreateRequest.generate [sampleEmployee 60000 60000] [] sampleGenerate,
          CreateRequest.manual [sampleEmployee 60000 60000] (sampleManual none none)]
        = [sampleRecord] := by
  refine ⟨periodUnique_invariant [] _ (by simp [periodUnique]), ?_⟩
  have h1 : generatePayroll [sampleEmployee 60000 60000] [] [] sampleGenerate
      = (Response.created sampleRecord, [sampleRecord]) :=
    generatePayroll_sample [] [] rfl (by
      rw [show calculateUnpaidLeaves [] 5 2024 = 0 from rfl]
      norm_num)
  have hfound : Payroll.findOne [sampleRecord] 1 5 2024 = some sampleRecord := by
    simp [Payroll.findOne, sampleRecord, generatedRecord]
  have h2 : generatePayroll [sampleEmployee 60000 60000] [] [sampleRecord] sampleGenerate
      = (Response.payrollExists, [sampleRecord]) :=
    generatePayroll_exists _ _ _ _ (sampleEmployee 60000 60000) sampleRecord
      sampleGenerate_valid rfl (by
        rw [sampleGenerate_month, sampleGenerate_year]
        exact hfound)
  have h3 : createPayroll [sampleEmployee 60000 60000] [sampleRecord]
      (sampleManual none none) = (Response.payrollExists, [sampleRecord]) :=
    createPayroll_exists _ _ _ (sampleEmployee 60000 60000) sampleRecord
      (by simp [isIntBetween, isIntAtLeast, isFloatAtLeast, sampleManual]) rfl (by
        have hm : (sampleManual none none).month.num = 5 := by simp [sampleManual]
        have hy : (sampleManual none none).year.num = 2024 := by simp [sampleManual]
        rw [hm, hy]
        exact hfound)
  simp only [serveAll, List.foldl_cons, List.foldl_nil, CreateRequest.serve, h1, h2, h3]

/-! ## Paid leave, bounds and monotonicity -/

theorem round_mono (x y : ℚ) (h : x ≤ y) : Math.round x ≤ Math.round y := by
  unfold Math.round
  have : ⌊x + 1 / 2⌋ ≤ ⌊y + 1 / 2⌋ := Int.floor_mono (by linarith)
  exact_mod_cast this

/-- The unpaid counter reads the unpaid leaves only. -/
theorem calculateUnpaidLeaves_filter (leaves : List Leave) (month year : ℤ) :
    calculateUnpaidLeaves leaves month year
      = calculateUnpaidLeaves (leaves.filter (fun leave => !leave.isPaid)) month year := by
  unfold calculateUnpaidLeaves
  rw [List.filter_filter]
  congr 1
  apply List.filter_congr
  intro l _
  cases l.isPaid <;> simp

/-- The salary breakdown reads the leave list through its two counters only. -/
theorem calculateMonthlySalary_counters (employee : Employee) (month year : ℤ)
    (leaves other : List Leave)
    (hu : calculateUnpaidLeaves leaves month year = calculateUnpaidLeaves other month year) :
    calculateMonthlySalary employee month year leaves
      = { calculateMonthlySalary employee month year other with
          paidLeaves := calculatePaidLeaves leaves month year } := by
  simp only [calculateMonthlySalary, hu]

/-- C27: paid leave never changes pay: two leave lists with the same unpaid leaves (they
differ by added or removed leaves with `isPaid = true`) give the same result except for
`paidLeaves`: basic salary, allowances, bonuses, every deduction, `grossSalary`,
`netSalary`, `workingDays` and `unpaidLeaves` agree; and `grossSalary`, allowances and
bonuses are the same for any two leave lists whatever. -/
theorem paid_leave_never_changes_pay (employee : Employee) (month year : ℤ)
    (leaves other : List Leave)
    (h : leaves.filter (fun leave => !leave.isPaid)
      = other.filter (fun leave => !leave.isPaid)) :
    calculateMonthlySalary employee month year leaves
        = { calculateMonthlySalary employee month year other with
            paidLeaves := calculatePaidLeaves leaves month year }
      ∧ (calculateMonthlySalary employee month year leaves).grossSalary
        = (calculateMonthlySalary employee month year other).grossSalary
      ∧ (calculateMonthlySalary employee month year leaves).netSalary
        = (calculateMonthlySalary employee month year other).netSalary
      ∧ (calculateMonthlySalary employee month year leaves).deductions
        = (calculateMonthlySalary employee month year other).deductions
      ∧ (calculateMonthlySalary employee month year leaves).workingDays
        = (calculateMonthlySalary employee month year other).workingDays
      ∧ (calculateMonthlySalary employee month year leaves).unpaidLeaves
        = (calculateMonthlySalary employee month year other).unpaidLeaves
      ∧ ∀ any : List Leave,
          (calculateMonthlySalary employee month year any).grossSalary
            = (calculateMonthlySalary employee month year leaves).grossSalary
          ∧ (calculateMonthlySalary employee month year any).allowances
            = (calculateMonthlySalary employee month year leaves).allowances
          ∧ (calculateMonthlySalary employee month year any).bonuses
            = (calculateMonthlySalary employee month year leaves).bonuses := by
  have hu : calculateUnpaidLeaves leaves month year
      = calculateUnpaidLeaves other month year := by
    rw [calculateUnpaidLeaves_filter leaves, calculateUnpaidLeaves_filter other, h]
  have hr := calculateMonthlySalary_counters employee month year leaves other hu
  refine ⟨hr, ?_, ?_, ?_, ?_, ?_, fun any => ⟨?_, rfl, rfl⟩⟩
  · rw [hr]
  · rw [hr]
  · rw [hr]
  · rw [hr]
  · rw [hr]
  · rw [monthly_gross, monthly_gross]

/-- C27 (witness): adding a 3-day and a 1-day paid leave around a 2-day unpaid leave
changes `paidLeaves` from 0 to 4 and nothing else. -/
theorem paid_leave_never_changes_pay_witness :
    calculateMonthlySalary (sampleEmployee 60000 60000) 5 2024
        [sampleLeave 3 true, sampleLeave 2 false, sampleLeave 1 true]
      = { calculateMonthlySalary (sampleEmployee 60000 60000) 5 2024 [sampleLeave 2 false]
          with paidLeaves := 4 } := by
  have hp : calculatePaidLeaves [sampleLeave 3 true, sampleLeave 2 false, sampleLeave 1 true]
      5 2024 = 4 := by
    simp [calculatePaidLeaves, sampleLeave, moment.month, moment.year]
    norm_num
  rw [← hp]
  exact (paid_leave_never_changes_pay (sampleEmployee 60000 60000) 5 2024
    [sampleLeave 3 true, sampleLeave 2 false, sampleLeave 1 true] [sampleLeave 2 false]
    (by simp [sampleLeave])).1

/-- The deductions in terms of the basic salary and the unpaid days. -/
theorem monthly_deductions (employee : Employee) (month year : ℤ) (leaves : List Leave) :
    (calculateMonthlySalary employee month year leaves).totalDeductions
      = employee.currentSalary * (19 / 80)
        + calculateUnpaidLeaves leaves month year * (employee.currentSalary / 30) := by
  simp only [calculateMonthlySalary, SalaryData.totalDeductions]
  ring

/-- C28: with `currentSalary >= 0` and the unpaid days attributed to the target month
totalling between 0 and 30, the result has `0 <= workingDays <= 30` and
`0 <= netSalary <= grossSalary`. -/
theorem monthly_bounds (employee : Employee) (month year : ℤ) (leaves : List Leave)
    (hb : 0 ≤ employee.currentSalary)
    (hu : 0 ≤ calculateUnpaidLeaves leaves month year
      ∧ calculateUnpaidLeaves leaves month year ≤ 30) :
    0 ≤ (calculateMonthlySalary employee month year leaves).workingDays
      ∧ (calculateMonthlySalary employee month year leaves).workingDays ≤ 30
      ∧ 0 ≤ (calculateMonthlySalary employee month year leaves).netSalary
      ∧ (calculateMonthlySalary employee month year leaves).netSalary
        ≤ (calculateMonthlySalary employee month year leaves).grossSalary := by
  have hw : (calculateMonthlySalary employee month year leaves).workingDays
      = 30 - calculateUnpaidLeaves leaves month year := rfl
  have hprod : calculateUnpaidLeaves leaves month year * (employee.currentSalary / 30)
      ≤ employee.currentSalary := by
    have := mul_le_mul_of_nonneg_right hu.2 (div_nonneg hb (by norm_num : (0 : ℚ) ≤ 30))
    linarith
  have hprod0 : 0 ≤ calculateUnpaidLeaves leaves month year * (employee.currentSalary / 30) :=
    mul_nonneg hu.1 (div_nonneg hb (by norm_num))
  rw [hw, monthly_net, monthly_gross, monthly_deductions]
  refine ⟨by linarith, by linarith, round_nonneg _ (by linarith), round_mono _ _ (by linarith)⟩

/-- C28 (witness): basic 60000 with 2 unpaid days: 28 working days and a net no larger
than the gross. -/
theorem monthly_bounds_witness :
    0 ≤ (calculateMonthlySalary (sampleEmployee 60000 60000) 5 2024
          [sampleLeave 2 false]).workingDays
      ∧ (calculateMonthlySalary (sampleEmployee 60000 60000) 5 2024
          [sampleLeave 2 false]).workingDays ≤ 30
      ∧ 0 ≤ (calculateMonthlySalary (sampleEmployee 60000 60000) 5 2024
          [sampleLeave 2 false]).netSalary
      ∧ (calculateMonthlySalary (sampleEmployee 60000 60000) 5 2024
          [sampleLeave 2 false]).netSalary
        ≤ (calculateMonthlySalary (sampleEmployee 60000 60000) 5 2024
          [sampleLeave 2 false]).grossSalary := by
  have hu : calculateUnpaidLeaves [sampleLeave 2 false] 5 2024 = 2 := by
    simp [calculateUnpaidLeaves, sampleLeave, moment.month, moment.year]
  exact monthly_bounds (sampleEmployee 60000 60000) 5 2024 [sampleLeave 2 false]
    (by norm_num [sampleEmployee]) (by rw [hu]; norm_num)

/-- One more pass of the loop does not lower a non-negative salary when the increment
value is non-negative. -/
theorem incrementLoop_le_succ (s : IncrementSettings) (hv : 0 ≤ s.incrementValue) (c : ℚ)
    (hc : 0 ≤ c) (n : ℕ) : incrementLoop s n c ≤ incrementLoop s (n + 1) c := by
  cases hk : s.incrementType with
  | percentage =>
    rw [incrementLoop_percentage s hk, incrementLoop_percentage s hk, pow_succ]
    have hq : 0 ≤ (1 + s.incrementValue / 100) ^ n :=
      pow_nonneg (by linarith [div_nonneg hv (by norm_num : (0 : ℚ) ≤ 100)]) n
    have hd : 0 ≤ s.incrementValue / 100 := div_nonneg hv (by norm_num)
    nlinarith [mul_nonneg (mul_nonneg hc hq) hd]
  | fixed =>
    rw [incrementLoop_fixed s hk, incrementLoop_fixed s hk]
    push_cast
    linarith

/-- The loop value does not decrease with the number of passes. -/
theorem incrementLoop_mono (s : IncrementSettings) (hv : 0 ≤ s.incrementValue) (c : ℚ)
    (hc : 0 ≤ c) (n m : ℕ) (h : n ≤ m) : incrementLoop s n c ≤ incrementLoop s m c :=
  monotone_nat_of_le_succ (incrementLoop_le_succ s hv c hc) h

/-- C29: an increment never lowers a salary: for a whole `baseSalary >= 0` and an active
policy with interval at least 1 and non-negative value, of either kind,
`calculateCurrentSalary` returns a value at least `baseSalary`, and more years of service
never give a smaller value. -/
theorem increment_never_lowers (store : List IncrementSettings) (s : IncrementSettings)
    (employee : Employee) (y later : ℤ)
    (hactive : IncrementSettings.findOne store = some s) (hint : 1 ≤ s.interval)
    (hv : 0 ≤ s.incrementValue) (hb : IsWhole employee.baseSalary)
    (hb0 : 0 ≤ employee.baseSalary) (hy : y ≤ later) :
    ∃ r rLater, calculateCurrentSalary store employee y = some r
      ∧ calculateCurrentSalary store employee later = some rLater
      ∧ employee.baseSalary ≤ r ∧ r ≤ rLater := by
  have hpos : 0 < s.interval := lt_of_lt_of_le one_pos hint
  obtain ⟨k, hk⟩ := hb
  have hbase : ∀ n, employee.baseSalary
      ≤ Math.round (incrementLoop s n employee.baseSalary) := by
    intro n
    have h0 : Math.round employee.baseSalary = employee.baseSalary := by
      rw [hk, round_int]
    calc employee.baseSalary = Math.round (incrementLoop s 0 employee.baseSalary) := by
          rw [show incrementLoop s 0 employee.baseSalary = employee.baseSalary from rfl, h0]
      _ ≤ Math.round (incrementLoop s n employee.baseSalary) :=
          round_mono _ _ (incrementLoop_mono s hv _ hb0 0 n (Nat.zero_le n))
  by_cases hl : (later : ℚ) < s.interval
  · have hyl : (y : ℚ) < s.interval := lt_of_le_of_lt (by exact_mod_cast hy) hl
    exact ⟨_, _, calculateCurrentSalary_base store employee y (Or.inr ⟨s, hactive, hyl⟩),
      calculateCurrentSalary_base store employee later (Or.inr ⟨s, hactive, hl⟩),
      le_refl _, le_refl _⟩
  · have hl' : s.interval ≤ later := not_lt.mp hl
    by_cases hyl : (y : ℚ) < s.interval
    · exact ⟨_, _, calculateCurrentSalary_base store employee y (Or.inr ⟨s, hactive, hyl⟩),
        calculateCurrentSalary_loop store s employee later hactive hpos hl',
        le_refl _, hbase _⟩
    · have hy' : s.interval ≤ y := not_lt.mp hyl
      refine ⟨_, _, calculateCurrentSalary_loop store s employee y hactive hpos hy',
        calculateCurrentSalary_loop store s employee later hactive hpos hl', hbase _, ?_⟩
      apply round_mono
      apply incrementLoop_mono s hv _ hb0
      apply Int.toNat_le_toNat
      unfold Math.floor
      apply Int.floor_mono
      exact div_le_div_of_nonneg_right (by exact_mod_cast hy) hpos.le

/-- C29 (witness): base 50000 under 10% every year: one year of service gives 55000,
three years 66550, both at least 50000. -/
theorem increment_never_lowers_witness :
    ∃ r rLater,
      calculateCurrentSalary [samplePolicy 1 IncrementType.percentage 10]
          (sampleEmployee 50000 50000) 1 = some r
      ∧ calculateCurrentSalary [samplePolicy 1 IncrementType.percentage 10]
          (sampleEmployee 50000 50000) 3 = some rLater
      ∧ (sampleEmployee 50000 50000).baseSalary ≤ r ∧ r ≤ rLater :=
  increment_never_lowers [samplePolicy 1 IncrementType.percentage 10]
    (samplePolicy 1 IncrementType.percentage 10) (sampleEmployee 50000 50000) 1 3 rfl
    (by norm_num [samplePolicy]) (by norm_num [samplePolicy])
    ⟨50000, by norm_num [sampleEmployee]⟩ (by norm_num [sampleEmployee]) (by norm_num)

/-! ## Guards of the creation handlers -/

/-- The `isInt({ min, max })` validator accepts exactly the whole numbers in range. -/
theorem isIntBetween_iff (x : ℚ) (min max : ℤ) :
    isIntBetween x min max = true ↔ ∃ k : ℤ, x = (k : ℚ) ∧ min ≤ k ∧ k ≤ max := by
  simp only [isIntBetween, Bool.and_eq_true, decide_eq_true_eq]
  constructor
  · rintro ⟨⟨hd, h1⟩, h2⟩
    exact ⟨x.num, (Rat.coe_int_num_of_den_eq_one hd).symm, h1, h2⟩
  · rintro ⟨k, rfl, h1, h2⟩
    exact ⟨⟨Rat.intCast_den k, by rw [Rat.intCast_num]; exact h1⟩,
      by rw [Rat.intCast_num]; exact h2⟩

/-- The `isInt({ min })` validator accepts exactly the whole numbers from `min` up. -/
theorem isIntAtLeast_iff (x : ℚ) (min : ℤ) :
    isIntAtLeast x min = true ↔ ∃ k : ℤ, x = (k : ℚ) ∧ min ≤ k := by
  simp only [isIntAtLeast, Bool.and_eq_true, decide_eq_true_eq]
  constructor
  · rintro ⟨hd, h1⟩
    exact ⟨x.num, (Rat.coe_int_num_of_den_eq_one hd).symm, h1⟩
  · rintro ⟨k, rfl, h1⟩
    exact ⟨Rat.intCast_den k, by rw [Rat.intCast_num]; exact h1⟩

/-- C26: a request to `POST /api/payroll/generate` or `POST /api/payroll` whose month is
not a whole number in 1..12 or whose year is not a whole number from 2020 up is answered
with the validation errors (400) and leaves the payroll store unchanged, whatever the
employee, leave and payroll collections hold: nothing is looked up or computed. -/
theorem malformed_period_rejected (month year : ℚ)
    (hbad : ¬ (∃ k : ℤ, month = (k : ℚ) ∧ 1 ≤ k ∧ k ≤ 12)
      ∨ ¬ (∃ k : ℤ, year = (k : ℚ) ∧ 2020 ≤ k)) :
    (∀ (employees : List Employee) (leaveStore : List Leave)
        (payrolls : List PayrollRecord) (req : GenerateRequest),
        req.month = month → req.year = year →
        generatePayroll employees leaveStore payrolls req
          = (Response.validationErrors, payrolls))
      ∧ (∀ (employees : List Employee) (payrolls : List PayrollRecord)
        (req : ManualRequest), req.month = month → req.year = year →
        createPayroll employees payrolls req = (Response.validationErrors, payrolls))
      ∧ Response.validationErrors.status = 400 := by
  have hv : ¬ (isIntBetween month 1 12 = true ∧ isIntAtLeast year 2020 = true) := by
    rw [isIntBetween_iff, isIntAtLeast_iff]
    rintro ⟨h1, h2⟩
    rcases hbad with h | h
    · exact h h1
    · exact h h2
  refine ⟨?_, ?_, rfl⟩
  · intro employees leaveStore payrolls req hm hy
    exact generatePayroll_invalid _ _ _ _ (by rw [hm, hy]; exact hv)
  · intro employees payrolls req hm hy
    exact createPayroll_invalid _ _ _ (by
      rw [hm, hy]
      exact fun h => hv ⟨h.1, h.2.1⟩)

/-- C26 (witness): month 5.5 of 2024 is rejected by both handlers although employee 1
exists and no record is stored. -/
theorem malformed_period_rejected_witness :
    generatePayroll [sampleEmployee 60000 60000] [] []
        { sampleGenerate with month := 11 / 2 }
        = (Response.validationErrors, [])
      ∧ createPayroll [sampleEmployee 60000 60000] []
        { sampleManual none none with month := 11 / 2 }
        = (Response.validationErrors, []) := by
  have h := malformed_period_rejected (11 / 2) 2024 (Or.inl (by
    rintro ⟨k, hk, _, _⟩
    have h2 : (11 : ℚ) = 2 * k := by linarith
    have h3 : (11 : ℤ) = 2 * k := by exact_mod_cast h2
    omega))
  exact ⟨h.1 _ _ _ _ rfl rfl, h.2.1 _ _ _ rfl rfl⟩

/-- C24 (the code at the failing input): basic salary 60000 and one unpaid leave of 60
days starting on 6 May 2024, both non-negative, give a May 2024 breakdown with
`netSalary = −10750` and `workingDays = −30`; `save()` refuses the record on the
schema's `min: 0` and the generate request is answered 500 with nothing stored. -/
theorem negative_net_salary :
    0 ≤ (sampleEmployee 60000 60000).currentSalary
      ∧ (∀ leave ∈ [longLeave], 0 ≤ leave.numberOfDays)
      ∧ (calculateMonthlySalary (sampleEmployee 60000 60000) 5 2024 [longLeave]).netSalary
        = -10750
      ∧ (calculateMonthlySalary (sampleEmployee 60000 60000) 5 2024 [longLeave]).workingDays
        = -30
      ∧ generatePayroll [sampleEmployee 60000 60000] [longLeave] [] sampleGenerate
        = (Response.serverError, []) := by
  have hu : calculateUnpaidLeaves [longLeave] 5 2024 = 60 := by
    simp [calculateUnpaidLeaves, longLeave, sampleLeave, moment.month, moment.year]
  have hnet : (calculateMonthlySalary (sampleEmployee 60000 60000) 5 2024
      [longLeave]).netSalary = -10750 := by
    rw [monthly_net, monthly_deductions, hu]
    exact round_eq_of _ (-10750) (by norm_num [sampleEmployee])
      (by norm_num [sampleEmployee])
  refine ⟨by norm_num [sampleEmployee], ?_, hnet, ?_, ?_⟩
  · intro leave hl
    rw [List.mem_singleton.mp hl]
    norm_num [longLeave, sampleLeave]
  · show (30 : ℚ) - calculateUnpaidLeaves [longLeave] 5 2024 = -30
    rw [hu]
    norm_num
  · rw [generatePayroll_compile [sampleEmployee 60000 60000] [longLeave] [] sampleGenerate
      (sampleEmployee 60000 60000) sampleGenerate_valid rfl rfl]
    simp only [sampleGenerate_month, sampleGenerate_year]
    have he : sampleGenerate.employeeId = 1 := rfl
    have h41 : (5 : ℤ) - 1 = 4 := by norm_num
    have hfind : Leave.find [longLeave] 1 { year := 2024, monthIndex := 4, day := 1 }
        { year := 2024, monthIndex := 5, day := 1 } = [longLeave] := by
      simp [Leave.find, Date.le, Date.lt, Date.monthCount, longLeave, sampleLeave]
    rw [he, h41, hfind]
    have hinvalid : Payroll.schemaValid (generatedRecord 1 5 2024
        (calculateMonthlySalary (sampleEmployee 60000 60000) 5 2024 [longLeave])) = false := by
      simp only [Payroll.schemaValid, generatedRecord, hnet]
      simp
    simp [Payroll.save, hinvalid]

/-! ## Increment settings -/

/-- The deactivated collection has no active document. -/
theorem filter_deactivateAll (store : List IncrementSettings) :
    (IncrementSettings.deactivateAll store).filter (fun s => s.isActive) = [] := by
  rw [List.filter_eq_nil_iff]
  intro s hs
  obtain ⟨t, _, rfl⟩ := List.mem_map.mp hs
  simp

/-- A successful `POST /api/admin/increment-settings`, in closed form. -/
theorem postIncrementSettings_saved (store : List IncrementSettings) (req : SettingsRequest)
    (settings : IncrementSettings)
    (h : (postIncrementSettings store req).1 = SettingsResponse.saved settings) :
    postIncrementSettings store req
        = (SettingsResponse.saved settings, IncrementSettings.deactivateAll store ++ [settings])
      ∧ settings.interval = req.interval
      ∧ IncrementType.ofString req.incrementType = some settings.incrementType
      ∧ settings.incrementValue = req.incrementValue
      ∧ settings.isActive = true := by
  unfold postIncrementSettings at h ⊢
  cases ht : IncrementType.ofString req.incrementType with
  | none =>
    rw [ht] at h
    cases h
  | some incrementType =>
    rw [ht] at h
    simp only at h ⊢
    by_cases hv : isIntAtLeast req.interval 1 = true ∧ isFloatAtLeast req.incrementValue 0 = true
    · rw [if_neg (not_not.mpr hv)] at h ⊢
      have hvalid : IncrementSettings.schemaValid
          { interval := req.interval, incrementType := incrementType,
            incrementValue := req.incrementValue, isActive := true } = true := by
        obtain ⟨k, hk, hk1⟩ := (isIntAtLeast_iff _ _).mp hv.1
        have h0 : (0 : ℚ) ≤ req.incrementValue := by
          simpa [isFloatAtLeast] using hv.2
        have h1 : (1 : ℚ) ≤ req.interval := by
          rw [hk]
          exact_mod_cast hk1
        simp [IncrementSettings.schemaValid, h0, h1]
      simp only [IncrementSettings.save, hvalid, if_true] at h ⊢
      have hs := SettingsResponse.saved.inj h
      subst hs
      exact ⟨rfl, rfl, rfl, rfl, rfl⟩
    · rw [if_pos hv] at h
      cases h

/-- C22: after every successful `POST /api/admin/increment-settings` exactly one stored
policy is active: it is the newly created one, carrying the submitted interval,
increment type and value, and it is what `findOne({ isActive: true })` returns; every
previously stored policy is kept with `isActive = false`. -/
theorem one_active_policy (store : List IncrementSettings) (req : SettingsRequest)
    (settings : IncrementSettings)
    (h : (postIncrementSettings store req).1 = SettingsResponse.saved settings) :
    (postIncrementSettings store req).2.filter (fun s => s.isActive) = [settings]
      ∧ settings.interval = req.interval
      ∧ IncrementType.ofString req.incrementType = some settings.incrementType
      ∧ settings.incrementValue = req.incrementValue
      ∧ (postIncrementSettings store req).2
        = store.map (fun s => { s with isActive := false }) ++ [settings]
      ∧ (∀ s ∈ store, ({ s with isActive := false } : IncrementSettings)
          ∈ (postIncrementSettings store req).2)
      ∧ IncrementSettings.findOne (postIncrementSettings store req).2 = some settings := by
  obtain ⟨hpost, h1, h2, h3, h4⟩ := postIncrementSettings_saved store req settings h
  have hfilter : (IncrementSettings.deactivateAll store ++ [settings]).filter
      (fun s => s.isActive) = [settings] := by
    rw [List.filter_append, filter_deactivateAll]
    simp [h4]
  rw [hpost]
  refine ⟨hfilter, h1, h2, h3, rfl, ?_, ?_⟩
  · intro s hs
    exact List.mem_append_left _ (List.mem_map.mpr ⟨s, hs, rfl⟩)
  · have hnone : List.find? (fun s => s.isActive) (IncrementSettings.deactivateAll store)
        = none := by
      rw [List.find?_eq_none]
      intro s hs
      obtain ⟨t, _, rfl⟩ := List.mem_map.mp hs
      simp
    simp only [IncrementSettings.findOne, List.find?_append, hnone, Option.none_or]
    simp [h4]

/-- C22 (witness): with two policies stored, both active, posting "fixed 250 every 2
years" leaves three policies of which only the new one is active. -/
theorem one_active_policy_witness :
    (postIncrementSettings
        [samplePolicy 1 IncrementType.percentage 10, samplePolicy 3 IncrementType.fixed 100]
        { interval := 2, incrementType := "fixed", incrementValue := 250 }).2
      = [{ samplePolicy 1 IncrementType.percentage 10 with isActive := false },
          { samplePolicy 3 IncrementType.fixed 100 with isActive := false },
          samplePolicy 2 IncrementType.fixed 250] := by
  have hr : (postIncrementSettings
      [samplePolicy 1 IncrementType.percentage 10, samplePolicy 3 IncrementType.fixed 100]
      { interval := 2, incrementType := "fixed", incrementValue := 250 }).1
      = SettingsResponse.saved (samplePolicy 2 IncrementType.fixed 250) := by
    simp [postIncrementSettings, IncrementType.ofString, isIntAtLeast, isFloatAtLeast,
      IncrementSettings.save, IncrementSettings.schemaValid, samplePolicy]
  rw [(one_active_policy _ _ _ hr).2.2.2.2.1]
  rfl

/-! ## Payroll records under the increment batch -/

/-- Unless an active policy has interval zero, `applyIncrements` returns. -/
theorem applyIncrements_returns (store : List IncrementSettings) (years : Date → ℤ)
    (employees : List Employee)
    (hint : ∀ s, IncrementSettings.findOne store = some s → s.interval ≠ 0) :
    ∃ out, applyIncrements store years employees = some out := by
  cases hf : IncrementSettings.findOne store with
  | none => exact ⟨_, applyIncrements_noop store years employees hf⟩
  | some s =>
    have hloop := applyIncrementsLoop_spec store years
      (Employee.find employees EmployeeStatus.active)
      (fun e _ => projected_ne_none store years hint e) employees 0 []
    simp only [applyIncrements, hf, hloop]
    exact ⟨_, rfl⟩

/-- A record `POST /api/payroll/generate` answers with was compiled from the employee
the lookup returned, and it was appended to the store. -/
theorem generatePayroll_created (employees : List Employee) (leaveStore : List Leave)
    (payrolls : List PayrollRecord) (req : GenerateRequest) (employee : Employee)
    (p : PayrollRecord)
    (he : Employee.findById employees req.employeeId = some employee)
    (h : (generatePayroll employees leaveStore payrolls req).1 = Response.created p) :
    p.basicSalary = employee.currentSalary
      ∧ generatePayroll employees leaveStore payrolls req
        = (Response.created p, payrolls ++ [p]) := by
  by_cases hv : isIntBetween req.month 1 12 = true ∧ isIntAtLeast req.year 2020 = true
  · cases hx : Payroll.findOne payrolls req.employeeId req.month.num req.year.num with
    | some existing =>
      rw [generatePayroll_exists _ _ _ _ _ _ hv he hx] at h
      cases h
    | none =>
      rw [generatePayroll_compile _ _ _ _ _ hv he hx] at h ⊢
      cases hs : Payroll.save payrolls (generatedRecord req.employeeId req.month.num
          req.year.num (calculateMonthlySalary employee req.month.num req.year.num
            (Leave.find leaveStore req.employeeId
              { year := req.year.num, monthIndex := req.month.num - 1, day := 1 }
              { year := req.year.num, monthIndex := req.month.num, day := 1 }))) with
      | none =>
        rw [hs] at h
        cases h
      | some saved =>
        rw [hs] at h
        have hp := Response.created.inj h
        obtain ⟨h1, _, _⟩ := save_eq_some _ _ _ hs
        subst hp
        exact ⟨rfl, by rw [h1]⟩
  · rw [generatePayroll_invalid _ _ _ _ hv] at h
    cases h

/-- C21: `POST /api/admin/apply-increments` returns and leaves the payroll store, like
the leave and settings stores, exactly as it was; and a record generated for an
employee carries that employee's `currentSalary` of the time as `basicSalary` and is
still the same stored record after a later increment run, whatever the run does to the
employee's `currentSalary`. -/
theorem increments_keep_payroll_records (years : Date → ℤ) (db : Database)
    (hint : ∀ s, IncrementSettings.findOne db.settings = some s → s.interval ≠ 0) :
    (∃ out after, postApplyIncrements years db = some (out, after)
        ∧ after.payrolls = db.payrolls ∧ after.leaves = db.leaves
        ∧ after.settings = db.settings ∧ after.employees = out.employees)
      ∧ ∀ (req : GenerateRequest) (employee : Employee) (p : PayrollRecord),
          Employee.findById db.employees req.employeeId = some employee →
          (generatePayroll db.employees db.leaves db.payrolls req).1 = Response.created p →
          p.basicSalary = employee.currentSalary
            ∧ ∃ out after,
              postApplyIncrements years
                  { db with payrolls :=
                      (generatePayroll db.employees db.leaves db.payrolls req).2 }
                = some (out, after)
              ∧ after.payrolls = db.payrolls ++ [p] := by
  obtain ⟨out, hout⟩ := applyIncrements_returns db.settings years db.employees hint
  refine ⟨⟨out, { db with employees := out.employees },
    by simp only [postApplyIncrements, hout], rfl, rfl, rfl, rfl⟩, ?_⟩
  intro req employee p he hgen
  obtain ⟨hb, hstore⟩ := generatePayroll_created _ _ _ _ employee p he hgen
  refine ⟨hb, out,
    { db with employees := out.employees
              payrolls := (generatePayroll db.employees db.leaves db.payrolls req).2 },
    by simp only [postApplyIncrements, hout], ?_⟩
  show (generatePayroll db.employees db.leaves db.payrolls req).2 = db.payrolls ++ [p]
  rw [hstore]

/-- Base 60000 under 10% every year with 3 years of service projects 79860. -/
theorem sample_projection_60000 (currentSalary : ℚ) :
    calculateCurrentSalary [samplePolicy 1 IncrementType.percentage 10]
      (sampleEmployee 60000 currentSalary) 3 = some 79860 := by
  rw [calculateCurrentSalary_loop [samplePolicy 1 IncrementType.percentage 10]
    (samplePolicy 1 IncrementType.percentage 10) (sampleEmployee 60000 currentSalary) 3 rfl
    (by norm_num [samplePolicy]) (by norm_num [samplePolicy]),
    incrementLoop_percentage _ rfl]
  have hn : (Math.floor (((3 : ℤ) : ℚ)
      / (samplePolicy 1 IncrementType.percentage 10).interval)).toNat = 3 := by
    simp [Math.floor, samplePolicy]
  rw [hn]
  congr 1
  exact round_eq_of _ 79860 (by norm_num [sampleEmployee, samplePolicy])
    (by norm_num [sampleEmployee, samplePolicy])

/-- The batch on the single sample employee raises the current salary to 79860. -/
theorem applyIncrements_sample :
    applyIncrements [samplePolicy 1 IncrementType.percentage 10] threeYears
        [sampleEmployee 60000 60000]
      = some { message := "Increments applied to 1 employees", updatedCount := some 1,
               employees := [sampleEmployee 60000 79860],
               saved := [sampleEmployee 60000 79860] } := by
  have hp : projected [samplePolicy 1 IncrementType.percentage 10] threeYears
      (sampleEmployee 60000 60000) = some 79860 := sample_projection_60000 60000
  have hn : needsUpdate [samplePolicy 1 IncrementType.percentage 10] threeYears
      (sampleEmployee 60000 60000) = true := by
    simp only [needsUpdate, hp]
    simp [sampleEmployee]
  have hw : withProjected [samplePolicy 1 IncrementType.percentage 10] threeYears
      (sampleEmployee 60000 60000) = sampleEmployee 60000 79860 := by
    simp only [withProjected, hp, Option.getD_some]
    rfl
  rw [applyIncrements_spec [samplePolicy 1 IncrementType.percentage 10] threeYears
    [sampleEmployee 60000 60000] (samplePolicy 1 IncrementType.percentage 10) rfl
    (fun s hs => by
      have : s = samplePolicy 1 IncrementType.percentage 10 := (Option.some.inj hs).symm
      subst this
      norm_num [samplePolicy])
    (by simp)]
  simp only [List.filter_cons, hn, if_true, List.filter_nil, List.length_singleton,
    List.map_cons, List.map_nil, hw, incremented]
  rfl

/-- C21 (witness): the May 2024 record of employee 1 is generated at current salary
60000; the increment run then raises the employee to 79860 and the payroll store still
holds that one record, with basic salary 60000. -/
theorem increments_keep_payroll_records_witness :
    sampleRecord.basicSalary = 60000
      ∧ ∃ out after,
          postApplyIncrements threeYears
              { settings := [samplePolicy 1 IncrementType.percentage 10],
                employees := [sampleEmployee 60000 60000], leaves := [],
                payrolls := (generatePayroll [sampleEmployee 60000 60000] [] []
                  sampleGenerate).2 }
            = some (out, after)
          ∧ after.payrolls = [sampleRecord]
          ∧ after.employees = [sampleEmployee 60000 79860] := by
  have hgen : generatePayroll [sampleEmployee 60000 60000] [] [] sampleGenerate
      = (Response.created sampleRecord, [sampleRecord]) :=
    generatePayroll_sample [] [] rfl (by
      rw [show calculateUnpaidLeaves [] 5 2024 = 0 from rfl]
      norm_num)
  have h := (increments_keep_payroll_records threeYears
    { settings := [samplePolicy 1 IncrementType.percentage 10],
      employees := [sampleEmployee 60000 60000], leaves := [], payrolls := [] }
    (fun s hs => by
      have : s = samplePolicy 1 IncrementType.percentage 10 := (Option.some.inj hs).symm
      subst this
      norm_num [samplePolicy])).2 sampleGenerate (sampleEmployee 60000 60000) sampleRecord
    rfl (by rw [hgen])
  obtain ⟨hb, out, after, hpost, hpay⟩ := h
  refine ⟨by rw [hb]; rfl, out, after, hpost, by simpa using hpay, ?_⟩
  simp only [postApplyIncrements, applyIncrements_sample, Option.some.injEq,
    Prod.mk.injEq] at hpost
  rw [← hpost.2]

/-! ## Leave operations -/

/-- A document `findById` returns is stored under the identity asked for. -/
theorem findById_some (leaves : List Leave) (id : ℕ) (leave : Leave)
    (h : Leave.findById leaves id = some leave) : leave ∈ leaves ∧ leave.id = id := by
  unfold Leave.findById at h
  exact ⟨List.mem_of_find?_eq_some h, by simpa using List.find?_some h⟩

/-- A decision read from a valid approval is `approved` or `rejected`. -/
theorem ofDecision_some (text : String) (status : LeaveStatus)
    (h : LeaveStatus.ofDecision text = some status) :
    status = LeaveStatus.approved ∨ status = LeaveStatus.rejected := by
  unfold LeaveStatus.ofDecision at h
  split at h
  · exact Or.inl (Option.some.inj h).symm
  · exact Or.inr (Option.some.inj h).symm
  · cases h

/-- The update assignments keep the identity and the status of a leave. -/
theorem updatedLeave_frame (diffDays : Date → Date → ℤ) (leave : Leave)
    (req : UpdateLeaveRequest) :
    (updatedLeave diffDays leave req).id = leave.id
      ∧ (updatedLeave diffDays leave req).status = leave.status
      ∧ (updatedLeave diffDays leave req).employeeId = leave.employeeId :=
  ⟨rfl, rfl, rfl⟩

/-- A successful insert appends the new document. -/
theorem insert_eq_some (leaves saved : List Leave) (leave : Leave)
    (h : Leave.insert leaves leave = some saved) : saved = leaves ++ [leave] := by
  unfold Leave.insert at h
  split at h
  · exact (Option.some.inj h).symm
  · cases h

/-- A successful save replaces the stored document of the same identity. -/
theorem leave_save_eq_some (leaves saved : List Leave) (leave : Leave)
    (h : Leave.save leaves leave = some saved) :
    saved = leaves.map (fun stored => if stored.id = leave.id then leave else stored) := by
  unfold Leave.save at h
  split at h
  · exact (Option.some.inj h).symm
  · cases h

/-- The effect of `POST /api/leaves` on the collection. -/
theorem createLeave_effect (diffDays : Date → Date → ℤ) (employees : List Employee)
    (leaves : List Leave) (req : CreateLeaveRequest) :
    LeaveEffect leaves (createLeave diffDays employees leaves req).2 := by
  unfold createLeave
  cases LeaveType.ofString req.leaveType with
  | none => exact LeaveEffect.unchanged
  | some leaveType =>
    simp only
    by_cases hr : req.reason = ""
    · rw [if_pos hr]
      exact LeaveEffect.unchanged
    · rw [if_neg hr]
      cases Employee.findById employees req.employeeId with
      | none => exact LeaveEffect.unchanged
      | some employee =>
        simp only
        by_cases hn : diffDays req.startDate req.endDate + 1 ≤ 0
        · rw [if_pos hn]
          exact LeaveEffect.unchanged
        · rw [if_neg hn]
          by_cases ho : (Leave.findOverlapping leaves req.employeeId req.startDate
              req.endDate).length > 0
          · rw [if_pos ho]
            exact LeaveEffect.unchanged
          · rw [if_neg ho]
            split
            · rename_i saved hs
              rw [insert_eq_some _ _ _ hs]
              exact LeaveEffect.inserted
                { employeeId := req.employeeId, startDate := req.startDate,
                  endDate := req.endDate,
                  numberOfDays := ((diffDays req.startDate req.endDate + 1 : ℤ) : ℚ),
                  status := LeaveStatus.pending, isPaid := req.isPaid.getD false,
                  id := Leave.freshId leaves, leaveType := leaveType, reason := req.reason,
                  remarks := none, approvedBy := none, approvedAt := none } rfl rfl
            · exact LeaveEffect.unchanged

/-- The effect of `PUT /api/leaves/:id/approve` on the collection. -/
theorem approveLeave_effect (leaves : List Leave) (id : ℕ) (req : ApproveLeaveRequest)
    (adminId : ℕ) (now : Date) :
    LeaveEffect leaves (approveLeave leaves id req adminId now).2 := by
  unfold approveLeave
  cases hd : LeaveStatus.ofDecision req.status with
  | none => exact LeaveEffect.unchanged
  | some status =>
    simp only
    cases hf : Leave.findById leaves id with
    | none => exact LeaveEffect.unchanged
    | some leave =>
      simp only
      by_cases hp : leave.status ≠ LeaveStatus.pending
      · rw [if_pos hp]
        exact LeaveEffect.unchanged
      · rw [if_neg hp]
        split
        · rename_i saved hs
          rw [leave_save_eq_some _ _ _ hs]
          exact LeaveEffect.replaced leave
            { leave with
              status := status, approvedBy := some adminId, approvedAt := some now,
              remarks := match req.remarks with
                | some text => if text = "" then leave.remarks else some text
                | none => leave.remarks }
            (findById_some _ _ _ hf).1 (not_not.mp hp) rfl
            (Or.inr (ofDecision_some _ _ hd))
        · exact LeaveEffect.unchanged

/-- The effect of `PUT /api/leaves/:id` on the collection. -/
theorem updateLeave_effect (diffDays : Date → Date → ℤ) (leaves : List Leave) (id : ℕ)
    (req : UpdateLeaveRequest) :
    LeaveEffect leaves (updateLeave diffDays leaves id req).2 := by
  unfold updateLeave
  split
  · exact LeaveEffect.unchanged
  · cases hf : Leave.findById leaves id with
    | none => exact LeaveEffect.unchanged
    | some leave =>
      simp only
      by_cases hp : leave.status ≠ LeaveStatus.pending
      · rw [if_pos hp]
        exact LeaveEffect.unchanged
      · rw [if_neg hp]
        split
        · rename_i saved hs
          rw [leave_save_eq_some _ _ _ hs]
          exact LeaveEffect.replaced leave (updatedLeave diffDays leave req)
            (findById_some _ _ _ hf).1 (not_not.mp hp) rfl (Or.inl rfl)
        · exact LeaveEffect.unchanged

/-- The effect of `DELETE /api/leaves/:id` on the collection. -/
theorem deleteLeave_effect (leaves : List Leave) (id : ℕ) :
    LeaveEffect leaves (deleteLeave leaves id).2 := by
  unfold deleteLeave
  cases hf : Leave.findById leaves id with
  | none => exact LeaveEffect.unchanged
  | some leave =>
    simp only
    by_cases hp : leave.status ≠ LeaveStatus.pending
    · rw [if_pos hp]
      exact LeaveEffect.unchanged
    · rw [if_neg hp]
      exact LeaveEffect.removed leave (findById_some _ _ _ hf).1 (not_not.mp hp)

/-- The effect of any leave operation on the collection. -/
theorem serve_effect (diffDays : Date → Date → ℤ) (leaves : List Leave) (op : LeaveOp) :
    LeaveEffect leaves (op.serve diffDays leaves).2 := by
  cases op with
  | create employees req => exact createLeave_effect diffDays employees leaves req
  | approve id req adminId now => exact approveLeave_effect leaves id req adminId now
  | update id req => exact updateLeave_effect diffDays leaves id req
  | delete id => exact deleteLeave_effect leaves id

/-- Every listed number is at most the running maximum. -/
theorem le_foldl_max (xs : List ℕ) (a x : ℕ) (h : x ∈ xs ∨ x ≤ a) : x ≤ xs.foldl max a := by
  induction xs generalizing a with
  | nil =>
    rcases h with h | h
    · cases h
    · exact h
  | cons y ys ih =>
    simp only [List.foldl_cons]
    apply ih
    rcases h with h | h
    · rcases List.mem_cons.mp h with h | h
      · exact Or.inr (h ▸ le_max_right a y)
      · exact Or.inl h
    · exact Or.inr (le_trans h (le_max_left a y))

/-- The fresh identity is above every stored identity. -/
theorem lt_freshId (leaves : List Leave) (leave : Leave) (h : leave ∈ leaves) :
    leave.id < Leave.freshId leaves := by
  unfold Leave.freshId
  exact Nat.lt_succ_of_le (le_foldl_max _ 0 _ (Or.inl (List.mem_map.mpr ⟨leave, h, rfl⟩)))

/-- Leave operations keep the identities distinct. -/
theorem effect_nodup (leaves after : List Leave) (h : LeaveEffect leaves after)
    (hid : (leaves.map (fun leave => leave.id)).Nodup) :
    (after.map (fun leave => leave.id)).Nodup := by
  cases h with
  | unchanged => exact hid
  | inserted new hnew _ =>
    rw [List.map_append, List.nodup_append]
    refine ⟨hid, by simp, ?_⟩
    intro a ha hb
    simp only [List.map_cons, List.map_nil, List.mem_singleton] at hb
    obtain ⟨l, hl, rfl⟩ := List.mem_map.mp ha
    have := lt_freshId leaves l hl
    omega
  | replaced target changed _ _ hch _ =>
    have hmap : (leaves.map (fun stored => if stored.id = changed.id then changed else stored)).map
        (fun leave => leave.id) = leaves.map (fun leave => leave.id) := by
      rw [List.map_map]
      apply List.map_congr_left
      intro x _
      by_cases hx : x.id = changed.id
      · simp [hx]
      · simp [hx]
    rw [hmap]
    exact hid
  | removed target _ _ =>
    exact (List.filter_sublist leaves).map _ |>.nodup hid

/-- With distinct identities, a leave operation keeps every processed leave as it is,
and a document that keeps its identity either is unchanged or was pending, with its
status kept or decided. -/
theorem effect_processed (leaves after : List Leave) (h : LeaveEffect leaves after)
    (hid : (leaves.map (fun leave => leave.id)).Nodup) :
    (∀ l ∈ leaves, l.status ≠ LeaveStatus.pending → l ∈ after)
      ∧ ∀ l ∈ leaves, ∀ l' ∈ after, l'.id = l.id →
          l' = l ∨ (l.status = LeaveStatus.pending
            ∧ (l'.status = l.status ∨ l'.status = LeaveStatus.approved
              ∨ l'.status = LeaveStatus.rejected)) := by
  have hinj : ∀ a ∈ leaves, ∀ b ∈ leaves, a.id = b.id → a = b :=
    fun a ha b hb hab => List.inj_on_of_nodup_map hid ha hb hab
  cases h with
  | unchanged =>
    exact ⟨fun l hl _ => hl, fun l hl l' hl' hll => Or.inl (hinj l' hl' l hl hll)⟩
  | inserted new hnew _ =>
    refine ⟨fun l hl _ => List.mem_append_left _ hl, fun l hl l' hl' hll => ?_⟩
    rcases List.mem_append.mp hl' with h1 | h1
    · exact Or.inl (hinj l' h1 l hl hll)
    · rw [List.mem_singleton.mp h1, hnew] at hll
      have := lt_freshId leaves l hl
      omega
  | replaced target changed hmem hpending hch hstatus =>
    constructor
    · intro l hl hs
      refine List.mem_map.mpr ⟨l, hl, ?_⟩
      have hne : ¬ (l.id = changed.id) := by
        intro hc
        have : l = target := hinj l hl target hmem (hc.trans hch)
        exact hs (this ▸ hpending)
      rw [if_neg hne]
    · intro l hl l' hl' hll
      obtain ⟨x, hx, rfl⟩ := List.mem_map.mp hl'
      by_cases hxc : x.id = changed.id
      · rw [if_pos hxc] at hll ⊢
        have hlt : l = target := hinj l hl target hmem (hll.symm.trans hch)
        subst hlt
        exact Or.inr ⟨hpending, hstatus⟩
      · rw [if_neg hxc] at hll ⊢
        exact Or.inl (hinj x hx l hl hll)
  | removed target hmem hpending =>
    constructor
    · intro l hl hs
      refine List.mem_filter.mpr ⟨hl, ?_⟩
      have hne : ¬ (l.id = target.id) := by
        intro hc
        have : l = target := hinj l hl target hmem hc
        exact hs (this ▸ hpending)
      simp [hne]
    · intro l hl l' hl' hll
      exact Or.inl (hinj l' (List.mem_of_mem_filter hl') l hl hll)

/-- The identities stay distinct along any sequence of leave operations. -/
theorem serveLeaveOps_nodup (diffDays : Date → Date → ℤ) (ops : List LeaveOp)
    (leaves : List Leave) (hid : (leaves.map (fun leave => leave.id)).Nodup) :
    ((serveLeaveOps diffDays leaves ops).map (fun leave => leave.id)).Nodup := by
  induction ops generalizing leaves with
  | nil => exact hid
  | cons op rest ih =>
    simp only [serveLeaveOps, List.foldl_cons]
    exact ih _ (effect_nodup _ _ (serve_effect diffDays leaves op) hid)

/-- C30: a processed leave is never changed again. In a leave store of distinct
identities, a leave whose status is approved or rejected is still stored, field for
field, after any sequence of leave operations; `PUT /api/leaves/:id/approve`,
`PUT /api/leaves/:id` and `DELETE /api/leaves/:id` aimed at it answer 400 and leave the
store unchanged; and the only way an operation changes the status of a stored leave is
from pending to approved or from pending to rejected. -/
theorem processed_leave_never_changes (diffDays : Date → Date → ℤ) (leaves : List Leave)
    (hid : (leaves.map (fun leave => leave.id)).Nodup) :
    (∀ (ops : List LeaveOp), ∀ l ∈ leaves, l.status ≠ LeaveStatus.pending →
        l ∈ serveLeaveOps diffDays leaves ops)
      ∧ (∀ (id : ℕ) (leave : Leave), Leave.findById leaves id = some leave →
          leave.status ≠ LeaveStatus.pending →
          (∀ (req : ApproveLeaveRequest) (adminId : ℕ) (now : Date),
              (approveLeave leaves id req adminId now).1.status = 400
                ∧ (approveLeave leaves id req adminId now).2 = leaves)
            ∧ (∀ req : UpdateLeaveRequest,
              (updateLeave diffDays leaves id req).1.status = 400
                ∧ (updateLeave diffDays leaves id req).2 = leaves)
            ∧ (deleteLeave leaves id).1.status = 400
            ∧ (deleteLeave leaves id).2 = leaves)
      ∧ (∀ (op : LeaveOp), ∀ l ∈ leaves, ∀ l' ∈ (op.serve diffDays leaves).2,
          l'.id = l.id → l'.status ≠ l.status →
          l.status = LeaveStatus.pending
            ∧ (l'.status = LeaveStatus.approved ∨ l'.status = LeaveStatus.rejected)) := by
  refine ⟨?_, ?_, ?_⟩
  · intro ops
    induction ops generalizing leaves with
    | nil => exact fun l hl _ => hl
    | cons op rest ih =>
      intro l hl hs
      simp only [serveLeaveOps, List.foldl_cons]
      have heff := serve_effect diffDays leaves op
      exact ih _ (effect_nodup _ _ heff hid) l ((effect_processed _ _ heff hid).1 l hl hs) hs
  · intro id leave hf hs
    refine ⟨fun req adminId now => ?_, fun req => ?_, ?_, ?_⟩
    · unfold approveLeave
      cases LeaveStatus.ofDecision req.status with
      | none => exact ⟨rfl, rfl⟩
      | some status =>
        simp only [hf, hs, ne_eq, not_false_eq_true, if_true]
        exact ⟨rfl, trivial⟩
    · unfold updateLeave
      split
      · exact ⟨rfl, rfl⟩
      · simp only [hf, hs, ne_eq, not_false_eq_true, if_true]
        exact ⟨rfl, trivial⟩
    · simp only [deleteLeave, hf, hs, ne_eq, not_false_eq_true, if_true]
      rfl
    · simp only [deleteLeave, hf, hs, ne_eq, not_false_eq_true, if_true]
  · intro op l hl l' hl' hll hne
    rcases (effect_processed _ _ (serve_effect diffDays leaves op) hid).2 l hl l' hl' hll
      with h | ⟨hp, h | h | h⟩
    · exact absurd (by rw [h]) hne
    · exact absurd h hne
    · exact ⟨hp, Or.inl h⟩
    · exact ⟨hp, Or.inr h⟩

/-- C30 (witness): the approved leave 1 is the whole store; approving, updating and
deleting it are each answered 400 and leave the store as it is. -/
theorem processed_leave_never_changes_witness :
    ((approveLeave [sampleLeave 2 false] 1 { status := "rejected", remarks := none } 7
          { year := 2024, monthIndex := 4, day := 3 }).1.status = 400
        ∧ (approveLeave [sampleLeave 2 false] 1 { status := "rejected", remarks := none } 7
          { year := 2024, monthIndex := 4, day := 3 }).2 = [sampleLeave 2 false])
      ∧ ((updateLeave sameMonthDays [sampleLeave 2 false] 1 moveStart).1.status = 400
        ∧ (updateLeave sameMonthDays [sampleLeave 2 false] 1 moveStart).2
          = [sampleLeave 2 false])
      ∧ (deleteLeave [sampleLeave 2 false] 1).1.status = 400
      ∧ (deleteLeave [sampleLeave 2 false] 1).2 = [sampleLeave 2 false] := by
  have h := (processed_leave_never_changes sameMonthDays [sampleLeave 2 false]
    (by simp)).2.1 1 (sampleLeave 2 false) rfl (by simp [sampleLeave])
  exact ⟨h.1 _ _ _, h.2.1 _, h.2.2.1, h.2.2.2⟩

/-! ## The no-overlap invariant -/

/-- `POST /api/leaves` keeps the no-overlap invariant. -/
theorem createLeave_noOverlap (diffDays : Date → Date → ℤ) (employees : List Employee)
    (leaves : List Leave) (req : CreateLeaveRequest) (h : noOverlap leaves) :
    noOverlap (createLeave diffDays employees leaves req).2 := by
  unfold createLeave
  cases LeaveType.ofString req.leaveType with
  | none => exact h
  | some leaveType =>
    simp only
    by_cases hr : req.reason = ""
    · rw [if_pos hr]
      exact h
    · rw [if_neg hr]
      cases Employee.findById employees req.employeeId with
      | none => exact h
      | some employee =>
        simp only
        by_cases hn : diffDays req.startDate req.endDate + 1 ≤ 0
        · rw [if_pos hn]
          exact h
        · rw [if_neg hn]
          by_cases ho : (Leave.findOverlapping leaves req.employeeId req.startDate
              req.endDate).length > 0
          · rw [if_pos ho]
            exact h
          · rw [if_neg ho]
            split
            · rename_i saved hs
              rw [insert_eq_some _ _ _ hs]
              have hnil : Leave.findOverlapping leaves req.employeeId req.startDate
                  req.endDate = [] := by
                apply List.eq_nil_of_length_eq_zero
                omega
              unfold noOverlap
              rw [List.pairwise_append]
              refine ⟨h, List.pairwise_singleton _ _, ?_⟩
              intro a ha b hb
              rw [List.mem_singleton.mp hb]
              have hfalse := (List.filter_eq_nil_iff.mp hnil) a ha
              simp only [Leave.conflicts]
              cases hc : (decide (a.employeeId = req.employeeId)
                  && (decide (a.status = LeaveStatus.pending)
                    || decide (a.status = LeaveStatus.approved))
                  && Date.le a.startDate req.endDate && Date.le req.startDate a.endDate) with
              | true => exact absurd hc hfalse
              | false =>
                revert hc
                cases decide (a.employeeId = req.employeeId) <;>
                  cases (decide (a.status = LeaveStatus.pending)
                    || decide (a.status = LeaveStatus.approved)) <;>
                  cases Date.le a.startDate req.endDate <;>
                  cases Date.le req.startDate a.endDate <;> simp
            · exact h

/-- Replacing a pending leave by a copy that differs only outside employee and dates
keeps the no-overlap invariant. -/
theorem replace_noOverlap (leaves : List Leave) (changed target : Leave)
    (hmem : target ∈ leaves) (hid : (leaves.map (fun leave => leave.id)).Nodup)
    (hpending : target.status = LeaveStatus.pending) (hch : changed.id = target.id)
    (he : changed.employeeId = target.employeeId) (hs : changed.startDate = target.startDate)
    (hd : changed.endDate = target.endDate) (h : noOverlap leaves) :
    noOverlap (leaves.map (fun stored => if stored.id = changed.id then changed else stored))
    := by
  unfold noOverlap at *
  have hinj : ∀ a ∈ leaves, a.id = changed.id → a = target :=
    fun a ha hac => List.inj_on_of_nodup_map hid ha hmem (hac.trans hch)
  have key : ∀ a ∈ leaves, ∀ b, Leave.conflicts a b = false →
      Leave.conflicts (if a.id = changed.id then changed else a) b = false := by
    intro a ha b hab
    by_cases hac : a.id = changed.id
    · rw [if_pos hac]
      have hat := hinj a ha hac
      subst hat
      simp only [Leave.conflicts, he, hs, hd, hpending] at hab ⊢
      revert hab
      cases decide (a.employeeId = b.employeeId) <;>
        cases (decide (b.status = LeaveStatus.pending)
          || decide (b.status = LeaveStatus.approved)) <;>
        cases Date.le a.startDate b.endDate <;> cases Date.le b.startDate a.endDate <;> simp
    · rw [if_neg hac]
      exact hab
  have key2 : ∀ b ∈ leaves, ∀ a, Leave.conflicts a b = false →
      Leave.conflicts a (if b.id = changed.id then changed else b) = false := by
    intro b hb a hab
    by_cases hbc : b.id = changed.id
    · rw [if_pos hbc]
      have hbt := hinj b hb hbc
      subst hbt
      simp only [Leave.conflicts, he, hs, hd, hpending] at hab ⊢
      revert hab
      cases decide (a.employeeId = b.employeeId) <;>
        cases (decide (a.status = LeaveStatus.pending)
          || decide (a.status = LeaveStatus.approved)) <;>
        cases Date.le a.startDate b.endDate <;> cases Date.le b.startDate a.endDate <;> simp
    · rw [if_neg hbc]
      exact hab
  rw [List.pairwise_map]
  refine List.Pairwise.imp_of_mem ?_ h
  intro a b ha hb hab
  by_cases hbc : b.id = changed.id
  · have hstep := key a ha b hab
    rw [if_pos hbc]
    have := key2 b hb (if a.id = changed.id then changed else a) hstep
    rwa [if_pos hbc] at this
  · rw [if_neg hbc]
    exact key a ha b hab

/-- `PUT /api/leaves/:id/approve` keeps the no-overlap invariant. -/
theorem approveLeave_noOverlap (leaves : List Leave) (id : ℕ) (req : ApproveLeaveRequest)
    (adminId : ℕ) (now : Date) (hid : (leaves.map (fun leave => leave.id)).Nodup)
    (h : noOverlap leaves) : noOverlap (approveLeave leaves id req adminId now).2 := by
  unfold approveLeave
  cases LeaveStatus.ofDecision req.status with
  | none => exact h
  | some status =>
    simp only
    cases hf : Leave.findById leaves id with
    | none => exact h
    | some leave =>
      simp only
      by_cases hp : leave.status ≠ LeaveStatus.pending
      · rw [if_pos hp]
        exact h
      · rw [if_neg hp]
        split
        · rename_i saved hs
          rw [leave_save_eq_some _ _ _ hs]
          exact replace_noOverlap leaves _ leave (findById_some _ _ _ hf).1 hid
            (not_not.mp hp) rfl rfl rfl rfl h
        · exact h

/-- `DELETE /api/leaves/:id` keeps the no-overlap invariant. -/
theorem deleteLeave_noOverlap (leaves : List Leave) (id : ℕ) (h : noOverlap leaves) :
    noOverlap (deleteLeave leaves id).2 := by
  unfold deleteLeave
  cases Leave.findById leaves id with
  | none => exact h
  | some leave =>
    simp only
    split
    · exact h
    · exact List.Pairwise.sublist (List.filter_sublist leaves) h

/-- Past its validators, the employee lookup and the date-order check,
`POST /api/leaves` answers with the overlap error exactly when the requested range
intersects a stored pending or approved leave of that employee. -/
theorem createLeave_overlaps_iff (diffDays : Date → Date → ℤ) (employees : List Employee)
    (leaves : List Leave) (req : CreateLeaveRequest) (leaveType : LeaveType)
    (employee : Employee) (ht : LeaveType.ofString req.leaveType = some leaveType)
    (hr : req.reason ≠ "") (he : Employee.findById employees req.employeeId = some employee)
    (hn : ¬ (diffDays req.startDate req.endDate + 1 ≤ 0)) :
    (createLeave diffDays employees leaves req).1 = LeaveResponse.overlaps
      ↔ ∃ l ∈ leaves, l.employeeId = req.employeeId
          ∧ (l.status = LeaveStatus.pending ∨ l.status = LeaveStatus.approved)
          ∧ Date.le l.startDate req.endDate = true
          ∧ Date.le req.startDate l.endDate = true := by
  have hq : (Leave.findOverlapping leaves req.employeeId req.startDate req.endDate).length > 0
      ↔ ∃ l ∈ leaves, l.employeeId = req.employeeId
          ∧ (l.status = LeaveStatus.pending ∨ l.status = LeaveStatus.approved)
          ∧ Date.le l.startDate req.endDate = true
          ∧ Date.le req.startDate l.endDate = true := by
    show 0 < (Leave.findOverlapping leaves req.employeeId req.startDate req.endDate).length
      ↔ _
    rw [List.length_pos_iff_exists_mem]
    simp only [Leave.findOverlapping, List.mem_filter, Bool.and_eq_true, Bool.or_eq_true,
      decide_eq_true_eq]
    constructor
    · rintro ⟨l, hl, ⟨⟨h1, h2⟩, h3⟩, h4⟩
      exact ⟨l, hl, h1, h2, h3, h4⟩
    · rintro ⟨l, hl, h1, h2, h3, h4⟩
      exact ⟨l, hl, ⟨⟨h1, h2⟩, h3⟩, h4⟩
  rw [← hq]
  unfold createLeave
  simp only [ht, hr, if_false, he, hn]
  by_cases ho : (Leave.findOverlapping leaves req.employeeId req.startDate
      req.endDate).length > 0
  · simp only [ho, if_true]
  · simp only [ho, if_false, iff_false]
    split
    · intro hc
      cases hc
    · intro hc
      cases hc

/-- C25 (the code at the failing input): employee 1 has two pending leaves, 6-7 May and
10-11 May 2024, which do not overlap. `PUT /api/leaves/2` with `startDate` 7 May is
answered 200 and stores leave 2 as 7-11 May, 5 days: the store now holds two pending
leaves of employee 1 that share 7 May. `POST /api/leaves` for the same range 7-11 May
beside leave 1 is rejected with the overlap error. -/
theorem update_breaks_no_overlap :
    noOverlap [pendingLeave 1 6 7, pendingLeave 2 10 11]
      ∧ updateLeave sameMonthDays [pendingLeave 1 6 7, pendingLeave 2 10 11] 2 moveStart
        = (LeaveResponse.ok (pendingLeave 2 7 11), [pendingLeave 1 6 7, pendingLeave 2 7 11])
      ∧ ¬ noOverlap [pendingLeave 1 6 7, pendingLeave 2 7 11]
      ∧ Leave.conflicts (pendingLeave 1 6 7) (pendingLeave 2 7 11) = true
      ∧ createLeave sameMonthDays [sampleEmployee 60000 60000] [pendingLeave 1 6 7]
          overlappingRequest
        = (LeaveResponse.overlaps, [pendingLeave 1 6 7]) := by
  have hconf : Leave.conflicts (pendingLeave 1 6 7) (pendingLeave 2 7 11) = true := by
    simp [Leave.conflicts, pendingLeave, Date.le, Date.monthCount]
  have hupd : updatedLeave sameMonthDays (pendingLeave 2 10 11) moveStart
      = pendingLeave 2 7 11 := by
    simp [updatedLeave, moveStart, pendingLeave, sameMonthDays]
  refine ⟨?_, ?_, ?_, hconf, ?_⟩
  · simp [noOverlap, Leave.conflicts, pendingLeave, Date.le, Date.monthCount]
  · have hfind : Leave.findById [pendingLeave 1 6 7, pendingLeave 2 10 11] 2
        = some (pendingLeave 2 10 11) := by
      simp [Leave.findById, pendingLeave]
    have hvalid : Leave.schemaValid (pendingLeave 2 7 11) = true := by
      simp [Leave.schemaValid, pendingLeave]
      norm_num
    have hmap : [pendingLeave 1 6 7, pendingLeave 2 10 11].map
        (fun stored => if stored.id = (pendingLeave 2 7 11).id then pendingLeave 2 7 11
          else stored) = [pendingLeave 1 6 7, pendingLeave 2 7 11] := by
      simp [pendingLeave]
    simp only [updateLeave, hfind, hupd, Leave.save, hvalid, if_true, hmap]
    simp [moveStart, pendingLeave]
  · intro h
    have := (List.pairwise_pair.mp h)
    rw [hconf] at this
    cases this
  · have hover : (Leave.findOverlapping [pendingLeave 1 6 7] overlappingRequest.employeeId
        overlappingRequest.startDate overlappingRequest.endDate).length > 0 := by
      simp [Leave.findOverlapping, overlappingRequest, pendingLeave, Date.le,
        Date.monthCount]
    have hn : ¬ (sameMonthDays overlappingRequest.startDate overlappingRequest.endDate + 1
        ≤ 0) := by
      simp [sameMonthDays, overlappingRequest]
    have ht : LeaveType.ofString overlappingRequest.leaveType = some LeaveType.casual := rfl
    have hr : overlappingRequest.reason ≠ "" := by
      simp [overlappingRequest]
    have he : Employee.findById [sampleEmployee 60000 60000] overlappingRequest.employeeId
        = some (sampleEmployee 60000 60000) := rfl
    simp only [createLeave, ht, hr, if_false, he, hn, hover, if_true]

end Payroll
